import Mathlib

/-!
# client.GetEntries (src/client/getentries.go)

A shallow embedding of `LogClient.GetEntries`, the get-entries call of the
Certificate Transparency log client, and theorems about it.

* Go `string` values are Lean `String`s; their bytes are the UTF-8 encoding.
* Go `[]byte` values are lists of naturals below 256.
* `int64` values are integers; the one arithmetic operation of the function,
  `start + int64(index)`, is reduced to the signed 64-bit range by `wrapInt64`.
* A Go result pair `([]ct.LogEntry, error)` is a record of two options: `none`
  stands for the nil slice and for the nil error.
* The functions and constants that `GetEntries` uses from outside its file
  (`fetchAndParse`, `GetEntriesPath`, package `ct`) are the fields of `Collaborators`.
-/

namespace Client

/-! ## Go values -/

/-- One octet, a natural number below 256. -/
abbrev Byte := Nat

/-- The UTF-8 encoding of one character: the bytes a Go string holds for it. -/
def utf8Char (c : Char) : List Byte :=
  let n := c.toNat
  if n < 128 then [n]
  else if n < 2048 then [192 + n / 64, 128 + n % 64]
  else if n < 65536 then [224 + n / 4096, 128 + n / 64 % 64, 128 + n % 64]
  else [240 + n / 262144, 128 + n / 4096 % 64, 128 + n / 64 % 64, 128 + n % 64]

/-- The bytes of a Go string. -/
def stringBytes (s : String) : List Byte :=
  s.toList.flatMap utf8Char

/-- Go `error` values that reach `GetEntries`. -/
inductive GoError where
  /-- The value of `errors.New(msg)` and of `fmt.Errorf` with the formatted text `msg`. -/
  | errorString (msg : String)
  /-- The value `base64.CorruptInputError(offset)`. -/
  | CorruptInputError (offset : Nat)
  /-- Any other error a collaborator hands back, named by its package and text. -/
  | other (pkg : String) (msg : String)
  deriving DecidableEq, Repr

/-- Conversion of an integer to `int64`: reduction modulo 2^64 into [-2^63, 2^63). -/
def wrapInt64 (x : Int) : Int :=
  (x + 9223372036854775808) % 18446744073709551616 - 9223372036854775808

/-- The verb `%d` of package fmt applied to an integer: decimal digits, no padding,
a leading minus sign for a negative number. -/
def formatD (x : Int) : String :=
  match x with
  | Int.ofNat n => Nat.repr n
  | Int.negSucc n => "-" ++ Nat.repr (n + 1)

/-! ## encoding/base64, `StdEncoding.DecodeString`

The standard alphabet with `=` padding, not strict, after the `decodeQuantum`
loop of the Go standard library. Carriage returns and line feeds are skipped.
On corrupt input the decoder gives back the bytes of the quanta it had completed
together with a `CorruptInputError`; `GetEntries` reads the bytes only. -/

/-- The decode map of `StdEncoding`: the 6-bit value of an alphabet byte, or
`none` where the Go table holds 0xFF. -/
def decodeMap (c : Byte) : Option Nat :=
  if 65 ≤ c ∧ c ≤ 90 then some (c - 65)
  else if 97 ≤ c ∧ c ≤ 122 then some (c - 71)
  else if 48 ≤ c ∧ c ≤ 57 then some (c + 4)
  else if c = 43 then some 62
  else if c = 47 then some 63
  else none

/-- Is the byte a line feed or a carriage return. -/
def isNewline (c : Byte) : Bool :=
  c = 10 || c = 13

/-- The skip-over-newlines loop of `decodeQuantum`: the input left and the number
of bytes skipped. -/
def skipNewlines : List Byte → List Byte × Nat
  | [] => ([], 0)
  | c :: rest =>
    if isNewline c then
      let r := skipNewlines rest
      (r.1, r.2 + 1)
    else (c :: rest, 0)

/-- The conversion of four 6-bit values into three bytes, of which the first
`dlen - 1` are written. -/
def assemble (dbuf : List Nat) (dlen : Nat) : List Byte :=
  let val := dbuf.getD 0 0 * 262144 + dbuf.getD 1 0 * 4096 + dbuf.getD 2 0 * 64 + dbuf.getD 3 0
  [val / 65536 % 256, val / 256 % 256, val % 256].take (dlen - 1)

/-- The end of a quantum once its padding is consumed: newlines are skipped, and
anything left is trailing garbage, reported after the quantum is written. -/
def decodeTail (src : List Byte) (si : Nat) (j : Nat) (dbuf : List Nat) (out : List Byte) :
    List Byte × Option GoError :=
  let r := skipNewlines src
  match r.1 with
  | [] => (out ++ assemble dbuf j, none)
  | _ :: _ => (out ++ assemble dbuf j, some (.CorruptInputError (si + r.2)))

/-- The padding branch of `decodeQuantum`: `src` is the input after the first `=`,
`si` its offset, `j` the number of 6-bit values read before the `=`. -/
def decodePadding (total : Nat) (src : List Byte) (si : Nat) (j : Nat) (dbuf : List Nat)
    (out : List Byte) : List Byte × Option GoError :=
  if j < 2 then
    -- incorrect padding
    (out, some (.CorruptInputError (si - 1)))
  else if j = 2 then
    -- "==" is expected, the first "=" is already consumed
    let r := skipNewlines src
    match r.1 with
    | [] => (out, some (.CorruptInputError total))
    | c :: rest =>
      if c ≠ 61 then (out, some (.CorruptInputError (si + r.2 - 1)))
      else decodeTail rest (si + r.2 + 1) j dbuf out
  else decodeTail src si j dbuf out

/-- The loops of `Encoding.Decode` and `decodeQuantum` over the input left:
`si` is the offset of `src` in the whole input, `dbuf` the 6-bit values of the
current quantum, `out` the bytes written so far. -/
def decodeLoop (total : Nat) : List Byte → Nat → List Nat → List Byte → List Byte × Option GoError
  | [], si, dbuf, out =>
    if dbuf.length = 0 then (out, none)
    else (out, some (.CorruptInputError (si - dbuf.length)))
  | c :: rest, si, dbuf, out =>
    match decodeMap c with
    | some v =>
      if dbuf.length = 3 then decodeLoop total rest (si + 1) [] (out ++ assemble (dbuf ++ [v]) 4)
      else decodeLoop total rest (si + 1) (dbuf ++ [v]) out
    | none =>
      if isNewline c then decodeLoop total rest (si + 1) dbuf out
      else if c ≠ 61 then (out, some (.CorruptInputError si))
      else decodePadding total rest (si + 1) dbuf.length dbuf out

/-- The call `base64.StdEncoding.DecodeString(s)`: the decoded bytes (on corrupt
input, those written before the error) and the error. -/
def DecodeString (s : String) : List Byte × Option GoError :=
  decodeLoop (stringBytes s).length (stringBytes s) 0 [] []

/-- A string is valid standard base64 when `DecodeString` reports no error. -/
def validBase64 (s : String) : Prop :=
  (DecodeString s).2 = none

instance (s : String) : Decidable (validBase64 s) := by
  unfold validBase64; infer_instance


/-! ## The data model -/

/-- The record `base64LeafEntry`: a Base64 encoded leaf entry. -/
structure base64LeafEntry where
  LeafInput : String
  ExtraData : String
  deriving DecidableEq, Repr

/-- The record `getEntriesResponse`: the JSON response to the get-entries method. -/
structure getEntriesResponse where
  Entries : List base64LeafEntry
  deriving DecidableEq, Repr

/-- The type `ct.LogEntryType`, an unsigned 16-bit tag. -/
abbrev LogEntryType := Nat

/-- The type `ct.ASN1Cert`, the bytes of one certificate. -/
abbrev ASN1Cert := List Byte

/-- Modelled from the spec: `ct.TimestampedEntry`, whose declaration is not under
src/; it carries an `EntryType` tag and the timestamped, type-specific payload. -/
structure TimestampedEntry where
  Timestamp : Nat
  EntryType : LogEntryType
  Payload : List Byte
  deriving DecidableEq, Repr

/-- Modelled from the spec: `ct.MerkleTreeLeaf`, whose declaration is not under
src/; a version byte, a leaf-type byte and a timestamped entry. -/
structure MerkleTreeLeaf where
  Version : Nat
  LeafType : Nat
  TimestampedEntry : TimestampedEntry
  deriving DecidableEq, Repr

/-- The fields of `ct.LogEntry` that `GetEntries` assigns. -/
structure LogEntry where
  Index : Int
  Leaf : MerkleTreeLeaf
  Chain : List ASN1Cert
  deriving DecidableEq, Repr

/-- The zero value of `ct.LogEntry`, with which `make` fills the slice. -/
def zeroLogEntry : LogEntry :=
  { Index := 0
    Leaf := ⟨0, 0, ⟨0, 0, []⟩⟩
    Chain := [] }

/-- The receiver `LogClient`; its `httpClient` is part of `Collaborators.fetchAndParse`. -/
structure LogClient where
  uri : String
  deriving DecidableEq, Repr

/-- What `GetEntries` uses from outside src/client/getentries.go. -/
structure Collaborators where
  /-- The constant `GetEntriesPath` of package client. -/
  GetEntriesPath : String
  /-- The call `fetchAndParse(c.httpClient, url, &resp)`: the response it stores
  in `resp`, or the error it returns. -/
  fetchAndParse : String → Except GoError getEntriesResponse
  /-- The constant `ct.X509LogEntryType`. -/
  X509LogEntryType : LogEntryType
  /-- The constant `ct.PrecertLogEntryType`. -/
  PrecertLogEntryType : LogEntryType
  /-- The two constants are the cases of one Go switch, hence different. -/
  distinctTypes : X509LogEntryType ≠ PrecertLogEntryType
  /-- The verb `%v` of package fmt applied to a `ct.LogEntryType`. -/
  formatEntryType : LogEntryType → String
  /-- The function `ct.ReadMerkleTreeLeaf` on the bytes of the buffer. -/
  ReadMerkleTreeLeaf : List Byte → Except GoError MerkleTreeLeaf
  /-- The function `ct.UnmarshalX509ChainArray`. -/
  UnmarshalX509ChainArray : List Byte → Except GoError (List ASN1Cert)
  /-- The function `ct.UnmarshalPrecertChainArray`. -/
  UnmarshalPrecertChainArray : List Byte → Except GoError (List ASN1Cert)

/-- What a call of `GetEntries` returns and does. -/
structure Outcome where
  /-- The returned slice; `none` is nil. -/
  entries : Option (List LogEntry)
  /-- The returned error; `none` is nil. -/
  err : Option GoError
  /-- The URLs handed to `fetchAndParse` during the call. -/
  fetched : List String
  deriving DecidableEq, Repr

/-! ## GetEntries -/

/-- The assignment `entries[index].f = v`, as `f` applied to the element at `index`. -/
def assignAt (f : LogEntry → LogEntry) : List LogEntry → Nat → List LogEntry
  | [], _ => []
  | e :: es, 0 => f e :: es
  | e :: es, index + 1 => e :: assignAt f es index

/-- The loop `for index, entry := range resp.Entries` of `GetEntries`, from
position `index` on, over the slice `entries` made before the loop. -/
def GetEntries.loop (env : Collaborators) (start : Int) :
    List base64LeafEntry → Nat → List LogEntry → Option (List LogEntry) × Option GoError
  | [], _, entries => (some entries, none)
  | entry :: rest, index, entries =>
    -- the error of this DecodeString is overwritten by the next statement
    let leafBytes := (DecodeString entry.LeafInput).1
    match env.ReadMerkleTreeLeaf leafBytes with
    | .error err => (none, some err)
    | .ok leaf =>
      let entries := assignAt (fun e => { e with Leaf := leaf }) entries index
      -- the error of this DecodeString is overwritten in the switch
      let chainBytes := (DecodeString entry.ExtraData).1
      if leaf.TimestampedEntry.EntryType = env.X509LogEntryType then
        match env.UnmarshalX509ChainArray chainBytes with
        | .error err => (none, some err)
        | .ok chain =>
          let entries := assignAt (fun e => { e with Chain := chain }) entries index
          let entries := assignAt (fun e => { e with Index := wrapInt64 (start + index) }) entries index
          GetEntries.loop env start rest (index + 1) entries
      else if leaf.TimestampedEntry.EntryType = env.PrecertLogEntryType then
        match env.UnmarshalPrecertChainArray chainBytes with
        | .error err => (none, some err)
        | .ok chain =>
          let entries := assignAt (fun e => { e with Chain := chain }) entries index
          let entries := assignAt (fun e => { e with Index := wrapInt64 (start + index) }) entries index
          GetEntries.loop env start rest (index + 1) entries
      else
        (none, some (.errorString
          ("saw unknown entry type: " ++ env.formatEntryType leaf.TimestampedEntry.EntryType)))

/-- The URL `fmt.Sprintf("%s%s?start=%d&end=%d", c.uri, GetEntriesPath, start, end)`. -/
def getEntriesURL (env : Collaborators) (c : LogClient) (start end_ : Int) : String :=
  c.uri ++ env.GetEntriesPath ++ "?start=" ++ formatD start ++ "&end=" ++ formatD end_

/-- The method `LogClient.GetEntries(start, end)`. -/
def GetEntries (env : Collaborators) (c : LogClient) (start end_ : Int) : Outcome :=
  if end_ < 0 then
    { entries := none, err := some (.errorString "end should be >= 0"), fetched := [] }
  else if end_ < start then
    { entries := none, err := some (.errorString "start should be <= end"), fetched := [] }
  else
    let url := getEntriesURL env c start end_
    match env.fetchAndParse url with
    | .error err => { entries := none, err := some err, fetched := [url] }
    | .ok resp =>
      let entries := List.replicate resp.Entries.length zeroLogEntry
      let r := GetEntries.loop env start resp.Entries 0 entries
      { entries := r.1, err := r.2, fetched := [url] }

/-! ## A sample of the collaborators -/

/-- The big-endian number held by a run of bytes. -/
def bigEndian (bs : List Byte) : Nat :=
  bs.foldl (fun acc b => acc * 256 + b) 0

/-- A length prefix of `n` bytes followed by that many bytes: the bytes read and
the input left. -/
def readVarBytes (n : Nat) (bs : List Byte) : Option (List Byte × List Byte) :=
  if bs.length < n then none
  else
    let len := bigEndian (bs.take n)
    let body := bs.drop n
    if body.length < len then none else some (body.take len, body.drop len)

/-- A run of certificates, each behind a 3-byte length, filling the input. -/
def readCerts : Nat → List Byte → Option (List ASN1Cert)
  | 0, _ => none
  | fuel + 1, bs =>
    if bs.length = 0 then some []
    else
      match readVarBytes 3 bs with
      | none => none
      | some (cert, rest) => (readCerts fuel rest).map (fun cs => cert :: cs)

/-- A certificate list behind a 3-byte total length. -/
def readASN1CertList (bs : List Byte) : Option (List ASN1Cert) :=
  match readVarBytes 3 bs with
  | none => none
  | some (body, _) => readCerts (body.length + 1) body

/-- Modelled from the spec: a Merkle Tree Leaf decoder in the place of
`ct.ReadMerkleTreeLeaf`, which is not under src/: a version byte, a leaf-type
byte, then a timestamped entry of an 8-byte timestamp, a 2-byte entry-type tag
and the type-specific payload. It keeps whatever tag it reads. -/
def sampleReadMerkleTreeLeaf (bs : List Byte) : Except GoError MerkleTreeLeaf :=
  if bs.length < 12 then .error (.other "ct" "unexpected EOF")
  else
    let entry : TimestampedEntry :=
      { Timestamp := bigEndian ((bs.drop 2).take 8)
        EntryType := bigEndian ((bs.drop 10).take 2)
        Payload := bs.drop 12 }
    .ok ⟨bs.getD 0 0, bs.getD 1 0, entry⟩

/-- Modelled from the spec: an X.509 certificate chain array decoder in the place
of `ct.UnmarshalX509ChainArray`, which is not under src/. -/
def sampleUnmarshalX509ChainArray (bs : List Byte) : Except GoError (List ASN1Cert) :=
  match readASN1CertList bs with
  | none => .error (.other "ct" "bad X.509 chain array")
  | some chain => .ok chain

/-- Modelled from the spec: a precertificate chain array decoder in the place of
`ct.UnmarshalPrecertChainArray`, which is not under src/: the precertificate,
then the chain up to the root. -/
def sampleUnmarshalPrecertChainArray (bs : List Byte) : Except GoError (List ASN1Cert) :=
  match readVarBytes 3 bs with
  | none => .error (.other "ct" "bad precertificate chain array")
  | some (precert, rest) =>
    match readASN1CertList rest with
    | none => .error (.other "ct" "bad precertificate chain array")
    | some chain => .ok (precert :: chain)

/-- Modelled from the spec: a sample of the collaborators, none of which is under
src/, around a transport that answers every request with `resp`. The entry-type
tags are 0 for X.509 and 1 for precertificates. -/
def sampleEnv (resp : Except GoError getEntriesResponse) : Collaborators :=
  { GetEntriesPath := "/ct/v1/get-entries"
    fetchAndParse := fun _ => resp
    X509LogEntryType := 0
    PrecertLogEntryType := 1
    distinctTypes := by decide
    formatEntryType := fun t => Nat.repr t
    ReadMerkleTreeLeaf := sampleReadMerkleTreeLeaf
    UnmarshalX509ChainArray := sampleUnmarshalX509ChainArray
    UnmarshalPrecertChainArray := sampleUnmarshalPrecertChainArray }

/-- A client of the sample log. -/
def sampleClient : LogClient :=
  { uri := "https://log.example" }

/-! ## What the decoders make of one record -/

/-- The decoders of `env` accept the record and make `leaf` and `chain` of it: the
leaf decoder gives `leaf` on the decoded `leaf_input`, and the chain decoder that
the tag of `leaf` selects gives `chain` on the decoded `extra_data`. -/
def DecodesTo (env : Collaborators) (entry : base64LeafEntry) (leaf : MerkleTreeLeaf)
    (chain : List ASN1Cert) : Prop :=
  env.ReadMerkleTreeLeaf (DecodeString entry.LeafInput).1 = .ok leaf ∧
  ((leaf.TimestampedEntry.EntryType = env.X509LogEntryType ∧
      env.UnmarshalX509ChainArray (DecodeString entry.ExtraData).1 = .ok chain) ∨
   (leaf.TimestampedEntry.EntryType = env.PrecertLogEntryType ∧
      env.UnmarshalPrecertChainArray (DecodeString entry.ExtraData).1 = .ok chain))

/-- The decoders of `env` accept the record. -/
def Decodes (env : Collaborators) (entry : base64LeafEntry) : Prop :=
  ∃ leaf chain, DecodesTo env entry leaf chain

/-- The record fails in the leaf decoder, in the type dispatch, or in the chain
decoder that the tag of its leaf selects. -/
def Rejects (env : Collaborators) (entry : base64LeafEntry) : Prop :=
  (∃ e, env.ReadMerkleTreeLeaf (DecodeString entry.LeafInput).1 = .error e) ∨
  (∃ leaf, env.ReadMerkleTreeLeaf (DecodeString entry.LeafInput).1 = .ok leaf ∧
    leaf.TimestampedEntry.EntryType ≠ env.X509LogEntryType ∧
    leaf.TimestampedEntry.EntryType ≠ env.PrecertLogEntryType) ∨
  (∃ leaf e, env.ReadMerkleTreeLeaf (DecodeString entry.LeafInput).1 = .ok leaf ∧
    ((leaf.TimestampedEntry.EntryType = env.X509LogEntryType ∧
        env.UnmarshalX509ChainArray (DecodeString entry.ExtraData).1 = .error e) ∨
     (leaf.TimestampedEntry.EntryType = env.PrecertLogEntryType ∧
        env.UnmarshalPrecertChainArray (DecodeString entry.ExtraData).1 = .error e)))

/-- The result of one pass through the loop body, apart from the slice: the leaf
and the chain to store, or the error to return. -/
def decodeRecord (env : Collaborators) (entry : base64LeafEntry) :
    Except GoError (MerkleTreeLeaf × List ASN1Cert) :=
  match env.ReadMerkleTreeLeaf (DecodeString entry.LeafInput).1 with
  | .error err => .error err
  | .ok leaf =>
    if leaf.TimestampedEntry.EntryType = env.X509LogEntryType then
      match env.UnmarshalX509ChainArray (DecodeString entry.ExtraData).1 with
      | .error err => .error err
      | .ok chain => .ok (leaf, chain)
    else if leaf.TimestampedEntry.EntryType = env.PrecertLogEntryType then
      match env.UnmarshalPrecertChainArray (DecodeString entry.ExtraData).1 with
      | .error err => .error err
      | .ok chain => .ok (leaf, chain)
    else
      .error (.errorString
        ("saw unknown entry type: " ++ env.formatEntryType leaf.TimestampedEntry.EntryType))

/-- The three assignments of one pass: `Leaf`, `Chain` and `Index` of `entries[index]`. -/
def storeEntry (start : Int) (entries : List LogEntry) (index : Nat) (leaf : MerkleTreeLeaf)
    (chain : List ASN1Cert) : List LogEntry :=
  assignAt (fun e => { e with Index := wrapInt64 (start + index) })
    (assignAt (fun e => { e with Chain := chain })
      (assignAt (fun e => { e with Leaf := leaf }) entries index) index) index

/-! ## Sample records

Leaves of 18 bytes: version 0, leaf type 0, timestamp 0, a 2-byte tag and six
bytes of payload. -/

/-- A record with a leaf of tag 0 (X.509) and an empty X.509 chain array. -/
def x509Record : base64LeafEntry :=
  { LeafInput := "AAAAAAAAAAAAAAAAAAAAAAAA", ExtraData := "AAAA" }

/-- A record with a leaf of tag 1 (precertificate) and a precertificate chain
array of the precertificate `[2]` and an empty chain. -/
def precertRecord : base64LeafEntry :=
  { LeafInput := "AAAAAAAAAAAAAAABAAAAAAAA", ExtraData := "AAABAgAAAA==" }

/-- A record with a leaf of tag 7, which is neither of the two known tags. -/
def unknownTypeRecord : base64LeafEntry :=
  { LeafInput := "AAAAAAAAAAAAAAAHAAAAAAAA", ExtraData := "AAAA" }

/-- A record whose leaf, three bytes long, the sample leaf decoder rejects. -/
def shortLeafRecord : base64LeafEntry :=
  { LeafInput := "AAAA", ExtraData := "AAAA" }

/-- The record `x509Record` with a `!` after the last quantum of `leaf_input`. -/
def corruptLeafInputRecord : base64LeafEntry :=
  { LeafInput := "AAAAAAAAAAAAAAAAAAAAAAAA!", ExtraData := "AAAA" }

/-- The record `x509Record` with a `!` after the last quantum of `extra_data`. -/
def corruptExtraDataRecord : base64LeafEntry :=
  { LeafInput := "AAAAAAAAAAAAAAAAAAAAAAAA", ExtraData := "AAAA!" }

/-- The leaf that the sample decoder makes of 18 zero bytes but for the tag. -/
def sampleLeaf (tag : LogEntryType) : MerkleTreeLeaf :=
  ⟨0, 0, ⟨0, tag, [0, 0, 0, 0, 0, 0]⟩⟩

/-! ## Exchanging the transport -/

/-- The collaborators `env` with the transport `f` in the place of its own. -/
def withTransport (env : Collaborators) (f : String → Except GoError getEntriesResponse) :
    Collaborators :=
  { env with fetchAndParse := f }

/-- The record fails with the error `e`: `e` is the error of the leaf decoder, or
the unknown-entry-type error of the type dispatch, or the error of the chain
decoder that the tag of the leaf selects. -/
def FailsWith (env : Collaborators) (entry : base64LeafEntry) (e : GoError) : Prop :=
  env.ReadMerkleTreeLeaf (DecodeString entry.LeafInput).1 = .error e ∨
  (∃ leaf, env.ReadMerkleTreeLeaf (DecodeString entry.LeafInput).1 = .ok leaf ∧
    leaf.TimestampedEntry.EntryType ≠ env.X509LogEntryType ∧
    leaf.TimestampedEntry.EntryType ≠ env.PrecertLogEntryType ∧
    e = .errorString
      ("saw unknown entry type: " ++ env.formatEntryType leaf.TimestampedEntry.EntryType)) ∨
  (∃ leaf, env.ReadMerkleTreeLeaf (DecodeString entry.LeafInput).1 = .ok leaf ∧
    ((leaf.TimestampedEntry.EntryType = env.X509LogEntryType ∧
        env.UnmarshalX509ChainArray (DecodeString entry.ExtraData).1 = .error e) ∨
     (leaf.TimestampedEntry.EntryType = env.PrecertLogEntryType ∧
        env.UnmarshalPrecertChainArray (DecodeString entry.ExtraData).1 = .error e)))

/-! ## Decimal numerals -/

/-- The number that a run of decimal digits denotes. -/
def decimalValue (cs : List Char) : Nat :=
  cs.foldl (fun acc ch => acc * 10 + (ch.toNat - 48)) 0

/-- Is the character one of the digits 0 to 9. -/
def isDecimalDigit (ch : Char) : Bool :=
  decide (48 ≤ ch.toNat) && decide (ch.toNat ≤ 57)

/-- The characters are the decimal numeral of `n` without padding: at least one
digit, digits only, denoting `n`, and no leading zero but in the numeral 0. -/
def UnpaddedDecimal (cs : List Char) (n : Nat) : Prop :=
  cs ≠ [] ∧ (∀ ch ∈ cs, isDecimalDigit ch = true) ∧ decimalValue cs = n ∧
    (cs.head? = some '0' → cs = ['0'])

/-- The string is the signed decimal numeral of `x` without padding: the numeral
of the absolute value, after a minus sign when `x` is negative. -/
def SignedDecimal (s : String) (x : Int) : Prop :=
  if x < 0 then ∃ cs, s.data = '-' :: cs ∧ UnpaddedDecimal cs x.natAbs
  else UnpaddedDecimal s.data x.natAbs

/-! ## The base64 decoder on small inputs -/

/-- The decoder on well-formed inputs: full quanta, one and two padding
characters, a line feed between quanta, the last two characters of the alphabet. -/
theorem DecodeString_wellformed :
    DecodeString "" = ([], none) ∧
    DecodeString "TWFu" = ([77, 97, 110], none) ∧
    DecodeString "TWE=" = ([77, 97], none) ∧
    DecodeString "TQ==" = ([77], none) ∧
    DecodeString "TWFu\nTWFu" = ([77, 97, 110, 77, 97, 110], none) ∧
    DecodeString "/+9a" = ([255, 239, 90], none) := by
  decide

/-- The decoder on corrupt inputs: the bytes of the quanta before the corrupt
position come back with the error. -/
theorem DecodeString_corrupt :
    DecodeString "TQ=" = ([], some (.CorruptInputError 3)) ∧
    DecodeString "TWFuTQ" = ([77, 97, 110], some (.CorruptInputError 4)) ∧
    DecodeString "TWFu!" = ([77, 97, 110], some (.CorruptInputError 4)) ∧
    DecodeString "TWE=x" = ([77, 97], some (.CorruptInputError 4)) := by
  decide

/-! ## Lemmas on the loop -/

theorem length_assignAt (f : LogEntry → LogEntry) (es : List LogEntry) (i : Nat) :
    (assignAt f es i).length = es.length := by
  induction es generalizing i with
  | nil => rfl
  | cons e es ih => cases i <;> simp [assignAt, ih]

theorem getElem?_assignAt (f : LogEntry → LogEntry) (es : List LogEntry) (i p : Nat) :
    (assignAt f es i)[p]? = if p = i then es[p]?.map f else es[p]? := by
  induction es generalizing i p with
  | nil => simp [assignAt]
  | cons e es ih =>
    cases i with
    | zero => cases p <;> simp [assignAt]
    | succ i => cases p <;> simp [assignAt, ih]

theorem length_storeEntry (start : Int) (es : List LogEntry) (i : Nat) (leaf : MerkleTreeLeaf)
    (chain : List ASN1Cert) : (storeEntry start es i leaf chain).length = es.length := by
  simp [storeEntry, length_assignAt]

theorem getElem?_storeEntry (start : Int) (es : List LogEntry) (i p : Nat)
    (leaf : MerkleTreeLeaf) (chain : List ASN1Cert) :
    (storeEntry start es i leaf chain)[p]? =
      if p = i then es[p]?.map (fun _ => ⟨wrapInt64 (start + i), leaf, chain⟩) else es[p]? := by
  simp only [storeEntry, getElem?_assignAt]
  by_cases h : p = i
  · simp only [h, if_true, Option.map_map]
    rfl
  · simp [h]

theorem loop_cons (env : Collaborators) (start : Int) (entry : base64LeafEntry)
    (rest : List base64LeafEntry) (index : Nat) (es : List LogEntry) :
    GetEntries.loop env start (entry :: rest) index es =
      match decodeRecord env entry with
      | .error err => (none, some err)
      | .ok (leaf, chain) =>
        GetEntries.loop env start rest (index + 1) (storeEntry start es index leaf chain) := by
  simp only [GetEntries.loop, decodeRecord, storeEntry]
  cases env.ReadMerkleTreeLeaf (DecodeString entry.LeafInput).1 with
  | error err => rfl
  | ok leaf =>
    simp only []
    split
    · cases env.UnmarshalX509ChainArray (DecodeString entry.ExtraData).1 <;> rfl
    · split
      · cases env.UnmarshalPrecertChainArray (DecodeString entry.ExtraData).1 <;> rfl
      · rfl

theorem decodeRecord_ok_iff (env : Collaborators) (entry : base64LeafEntry)
    (leaf : MerkleTreeLeaf) (chain : List ASN1Cert) :
    decodeRecord env entry = .ok (leaf, chain) ↔ DecodesTo env entry leaf chain := by
  unfold decodeRecord DecodesTo
  have hd := env.distinctTypes
  cases hl : env.ReadMerkleTreeLeaf (DecodeString entry.LeafInput).1 with
  | error err => simp
  | ok leaf1 =>
    simp only []
    by_cases hx : leaf1.TimestampedEntry.EntryType = env.X509LogEntryType
    · have hp : leaf1.TimestampedEntry.EntryType ≠ env.PrecertLogEntryType := fun h => hd (hx ▸ h)
      simp only [hx, if_true]
      cases hc : env.UnmarshalX509ChainArray (DecodeString entry.ExtraData).1 with
      | error err =>
        constructor
        · intro h; cases h
        · rintro ⟨h1, h2⟩
          cases h1
          rcases h2 with ⟨_, h⟩ | ⟨h, _⟩
          · cases h
          · exact absurd (hx ▸ h) hd
      | ok chain1 =>
        constructor
        · intro h
          cases h
          exact ⟨rfl, Or.inl ⟨hx, rfl⟩⟩
        · rintro ⟨h1, h2⟩
          cases h1
          rcases h2 with ⟨_, h⟩ | ⟨h, _⟩
          · cases h; rfl
          · exact absurd (hx ▸ h) hd
    · simp only [hx, if_false]
      by_cases hp : leaf1.TimestampedEntry.EntryType = env.PrecertLogEntryType
      · simp only [hp, if_true]
        cases hc : env.UnmarshalPrecertChainArray (DecodeString entry.ExtraData).1 with
        | error err =>
          constructor
          · intro h; cases h
          · rintro ⟨h1, h2⟩
            cases h1
            rcases h2 with ⟨h, _⟩ | ⟨_, h⟩
            · exact absurd h hx
            · cases h
        | ok chain1 =>
          constructor
          · intro h
            cases h
            exact ⟨rfl, Or.inr ⟨hp, rfl⟩⟩
          · rintro ⟨h1, h2⟩
            cases h1
            rcases h2 with ⟨h, _⟩ | ⟨_, h⟩
            · exact absurd h hx
            · cases h; rfl
      · simp only [hp, if_false]
        constructor
        · intro h; cases h
        · rintro ⟨h1, h2⟩
          cases h1
          rcases h2 with ⟨h, _⟩ | ⟨h, _⟩
          · exact absurd h hx
          · exact absurd h hp

theorem decodes_of_decodeRecord_ok (env : Collaborators) (entry : base64LeafEntry)
    (d : MerkleTreeLeaf × List ASN1Cert) (h : decodeRecord env entry = .ok d) :
    Decodes env entry :=
  ⟨d.1, d.2, (decodeRecord_ok_iff env entry d.1 d.2).1 h⟩

theorem not_decodes_of_decodeRecord_error (env : Collaborators) (entry : base64LeafEntry)
    (e : GoError) (h : decodeRecord env entry = .error e) : ¬ Decodes env entry := by
  rintro ⟨leaf, chain, hd⟩
  rw [(decodeRecord_ok_iff env entry leaf chain).2 hd] at h
  cases h

theorem decodeRecord_error_of_not_decodes (env : Collaborators) (entry : base64LeafEntry)
    (h : ¬ Decodes env entry) : ∃ e, decodeRecord env entry = .error e := by
  cases hd : decodeRecord env entry with
  | error e => exact ⟨e, rfl⟩
  | ok d => exact absurd (decodes_of_decodeRecord_ok env entry d hd) h

theorem not_decodes_of_rejects (env : Collaborators) (entry : base64LeafEntry)
    (h : Rejects env entry) : ¬ Decodes env entry := by
  rintro ⟨leaf, chain, hl, hc⟩
  rcases h with ⟨e, he⟩ | ⟨leaf1, hl1, hx, hp⟩ | ⟨leaf1, e, hl1, hc1⟩
  · rw [hl] at he; cases he
  · rw [hl] at hl1
    cases hl1
    rcases hc with ⟨h, _⟩ | ⟨h, _⟩
    · exact hx h
    · exact hp h
  · rw [hl] at hl1
    cases hl1
    rcases hc with ⟨hx, hok⟩ | ⟨hp, hok⟩
    · rcases hc1 with ⟨_, herr⟩ | ⟨hp1, _⟩
      · rw [hok] at herr; cases herr
      · exact env.distinctTypes (hx.symm.trans hp1)
    · rcases hc1 with ⟨hx1, _⟩ | ⟨_, herr⟩
      · exact env.distinctTypes (hx1.symm.trans hp)
      · rw [hok] at herr; cases herr

/-- The loop ends in a slice and no error, or in an error and no slice. -/
theorem loop_shape (env : Collaborators) (start : Int) (rs : List base64LeafEntry) :
    ∀ (index : Nat) (es : List LogEntry),
      (∃ out, GetEntries.loop env start rs index es = (some out, none)) ∨
      (∃ e, GetEntries.loop env start rs index es = (none, some e)) := by
  induction rs with
  | nil => intro index es; exact Or.inl ⟨es, rfl⟩
  | cons entry rest ih =>
    intro index es
    rw [loop_cons]
    cases decodeRecord env entry with
    | error e => exact Or.inr ⟨e, rfl⟩
    | ok d => exact ih _ _

/-- When the loop ends in a slice: the slice has the length it had before the
loop, the positions below `index` are untouched, and position `index + j` holds
what the decoders make of record `j`, with `Index` the wrapped `start + (index + j)`. -/
theorem loop_some (env : Collaborators) (start : Int) (rs : List base64LeafEntry) :
    ∀ (index : Nat) (es out : List LogEntry) (o : Option GoError),
      GetEntries.loop env start rs index es = (some out, o) →
      o = none ∧ out.length = es.length ∧ (∀ p, p < index → out[p]? = es[p]?) ∧
      ∀ j r, rs[j]? = some r → ∃ leaf chain, DecodesTo env r leaf chain ∧
        out[index + j]? =
          es[index + j]?.map (fun _ => ⟨wrapInt64 (start + ((index + j : Nat) : Int)), leaf, chain⟩) := by
  induction rs with
  | nil =>
    intro index es out o h
    simp only [GetEntries.loop, Prod.mk.injEq, Option.some.injEq] at h
    obtain ⟨h1, h2⟩ := h
    subst h1
    exact ⟨h2.symm, rfl, fun _ _ => rfl, fun j r hj => by simp at hj⟩
  | cons entry rest ih =>
    intro index es out o h
    rw [loop_cons] at h
    cases hd : decodeRecord env entry with
    | error e => rw [hd] at h; simp at h
    | ok d =>
      obtain ⟨leaf, chain⟩ := d
      rw [hd] at h
      obtain ⟨ho, hlen, hlow, hrec⟩ := ih _ _ _ _ h
      refine ⟨ho, by rw [hlen, length_storeEntry], ?_, ?_⟩
      · intro p hp
        rw [hlow p (by omega), getElem?_storeEntry, if_neg (by omega)]
      · intro j r hj
        cases j with
        | zero =>
          simp only [List.getElem?_cons_zero, Option.some.injEq] at hj
          subst hj
          refine ⟨leaf, chain, (decodeRecord_ok_iff env _ leaf chain).1 hd, ?_⟩
          rw [Nat.add_zero, hlow index (by omega), getElem?_storeEntry, if_pos rfl]
        | succ j =>
          simp only [List.getElem?_cons_succ] at hj
          obtain ⟨leaf1, chain1, hdec, hout⟩ := hrec j r hj
          refine ⟨leaf1, chain1, hdec, ?_⟩
          have e : index + 1 + j = index + (j + 1) := by omega
          rw [e, getElem?_storeEntry, if_neg (by omega)] at hout
          exact hout

/-- When the records below `k` decode and record `k` does not, the loop returns
the error of record `k` and no slice. -/
theorem loop_fail (env : Collaborators) (start : Int) (rs : List base64LeafEntry) :
    ∀ (k index : Nat) (es : List LogEntry) (r : base64LeafEntry) (e : GoError),
      (∀ j r1, j < k → rs[j]? = some r1 → Decodes env r1) → rs[k]? = some r →
      decodeRecord env r = .error e →
      GetEntries.loop env start rs index es = (none, some e) := by
  induction rs with
  | nil => intro k index es r e _ hk; simp at hk
  | cons entry rest ih =>
    intro k index es r e hpre hk he
    rw [loop_cons]
    cases k with
    | zero =>
      simp only [List.getElem?_cons_zero, Option.some.injEq] at hk
      subst hk
      rw [he]
    | succ k =>
      simp only [List.getElem?_cons_succ] at hk
      obtain ⟨leaf, chain, hd⟩ := hpre 0 entry (by omega) (by simp)
      rw [(decodeRecord_ok_iff env entry leaf chain).2 hd]
      exact ih k _ _ r e (fun j r1 hj hr => hpre (j + 1) r1 (by omega) (by simpa using hr)) hk he

/-- The call past the range checks and a transport that answered `resp`. -/
theorem GetEntries_of_fetch (env : Collaborators) (c : LogClient) (start end_ : Int)
    (resp : getEntriesResponse) (h0 : 0 ≤ end_) (h1 : start ≤ end_)
    (hf : env.fetchAndParse (getEntriesURL env c start end_) = .ok resp) :
    GetEntries env c start end_ =
      { entries := (GetEntries.loop env start resp.Entries 0
            (List.replicate resp.Entries.length zeroLogEntry)).1
        err := (GetEntries.loop env start resp.Entries 0
            (List.replicate resp.Entries.length zeroLogEntry)).2
        fetched := [getEntriesURL env c start end_] } := by
  unfold GetEntries
  rw [if_neg (by omega), if_neg (by omega)]
  simp only [hf]

/-- A call that returns no error passed the range checks, reached the transport,
and returns the slice of the loop. -/
theorem GetEntries_success (env : Collaborators) (c : LogClient) (start end_ : Int)
    (h : (GetEntries env c start end_).err = none) :
    0 ≤ end_ ∧ start ≤ end_ ∧ ∃ resp out,
      env.fetchAndParse (getEntriesURL env c start end_) = .ok resp ∧
      GetEntries.loop env start resp.Entries 0
        (List.replicate resp.Entries.length zeroLogEntry) = (some out, none) ∧
      (GetEntries env c start end_).entries = some out := by
  unfold GetEntries at h ⊢
  by_cases h0 : end_ < 0
  · simp [h0] at h
  · by_cases h1 : end_ < start
    · simp [h0, h1] at h
    · refine ⟨by omega, by omega, ?_⟩
      simp only [h0, h1, if_false] at h ⊢
      cases hf : env.fetchAndParse (getEntriesURL env c start end_) with
      | error e => simp [hf] at h
      | ok resp =>
        simp only [hf] at h ⊢
        rcases loop_shape env start resp.Entries 0
            (List.replicate resp.Entries.length zeroLogEntry) with ⟨out, ho⟩ | ⟨e, he⟩
        · exact ⟨resp, out, rfl, ho, by rw [ho]⟩
        · rw [he] at h; simp at h

/-- A successful call on the response `resp`: the returned slice is as long as
the response, and position `i` holds what the decoders make of record `i`, with
`Index` the wrapped `start + i`. -/
theorem GetEntries_entries (env : Collaborators) (c : LogClient) (start end_ : Int)
    (resp : getEntriesResponse)
    (hf : env.fetchAndParse (getEntriesURL env c start end_) = .ok resp)
    (h : (GetEntries env c start end_).err = none) :
    ∃ out, (GetEntries env c start end_).entries = some out ∧
      out.length = resp.Entries.length ∧
      ∀ (i : Nat) (r : base64LeafEntry), resp.Entries[i]? = some r →
        ∃ leaf chain, DecodesTo env r leaf chain ∧
          out[i]? = some (LogEntry.mk (wrapInt64 (start + (i : Int))) leaf chain) := by
  obtain ⟨_, _, resp1, out, hf1, hloop, hent⟩ := GetEntries_success env c start end_ h
  rw [hf] at hf1
  cases hf1
  obtain ⟨_, hlen, _, hrec⟩ := loop_some env start resp.Entries 0 _ out none hloop
  refine ⟨out, hent, by rw [hlen, List.length_replicate], ?_⟩
  intro i r hi
  obtain ⟨leaf, chain, hdec, hout⟩ := hrec i r hi
  refine ⟨leaf, chain, hdec, ?_⟩
  have hlt : i < resp.Entries.length := by
    rcases Nat.lt_or_ge i resp.Entries.length with hlt | hge
    · exact hlt
    · rw [List.getElem?_eq_none hge] at hi; cases hi
  rw [Nat.zero_add] at hout
  rw [hout, List.getElem?_replicate, if_pos hlt]
  rfl

theorem wrapInt64_of_range (x : Int) (h0 : -9223372036854775808 ≤ x)
    (h1 : x < 9223372036854775808) : wrapInt64 x = x := by
  unfold wrapInt64
  rw [Int.emod_eq_of_lt (by omega) (by omega)]
  omega

/-! ## The claims -/

/-- C1, as stated, fails: with `start = end = 2^63 - 1` and a response of two
well-formed records the call succeeds and the entry at position 1 has `Index`
`-2^63`, which is not `start + 1`. -/
theorem C1_counterexample :
    (0 : Int) ≤ 9223372036854775807 ∧
    (9223372036854775807 : Int) ≤ 9223372036854775807 ∧
    (GetEntries (sampleEnv (.ok ⟨[x509Record, x509Record]⟩)) sampleClient
      9223372036854775807 9223372036854775807).err = none ∧
    (GetEntries (sampleEnv (.ok ⟨[x509Record, x509Record]⟩)) sampleClient
      9223372036854775807 9223372036854775807).entries =
        some [⟨9223372036854775807, sampleLeaf 0, []⟩, ⟨-9223372036854775808, sampleLeaf 0, []⟩] ∧
    (-9223372036854775808 : Int) ≠ 9223372036854775807 + 1 := by
  decide

/-- C1, amended: for every range with `0 <= start <= end` and every transport
response with `start + (number of records) <= 2^63`, if GetEntries succeeds then
the returned collection is as long as the response and for every position `i`
of it the `i`-th Log Entry has `Index = start + i`. -/
theorem C1_index_is_start_plus_position (env : Collaborators) (c : LogClient) (start end_ : Int)
    (resp : getEntriesResponse) (h0 : 0 ≤ start) (_hle : start ≤ end_)
    (hf : env.fetchAndParse (getEntriesURL env c start end_) = .ok resp)
    (hb : start + (resp.Entries.length : Int) ≤ 9223372036854775808)
    (h : (GetEntries env c start end_).err = none) :
    ∃ out, (GetEntries env c start end_).entries = some out ∧
      out.length = resp.Entries.length ∧
      ∀ (i : Nat) (e : LogEntry), out[i]? = some e → e.Index = start + (i : Int) := by
  obtain ⟨out, hent, hlen, hrec⟩ := GetEntries_entries env c start end_ resp hf h
  refine ⟨out, hent, hlen, ?_⟩
  intro i e hi
  have hlt : i < resp.Entries.length := by
    rcases Nat.lt_or_ge i out.length with hlt | hge
    · omega
    · rw [List.getElem?_eq_none hge] at hi; cases hi
  obtain ⟨leaf, chain, _, hout⟩ := hrec i resp.Entries[i] (List.getElem?_eq_getElem hlt)
  rw [hout] at hi
  cases hi
  exact wrapInt64_of_range _ (by omega) (by omega)

/-- C1, amended, at the sample log: range (5, 7) and a response of an X.509 record
and a precertificate record. -/
theorem C1_index_is_start_plus_position_witness :
    (0 : Int) ≤ 5 ∧ (5 : Int) ≤ 7 ∧
    (5 : Int) + (([x509Record, precertRecord] : List base64LeafEntry).length : Int)
      ≤ 9223372036854775808 ∧
    (GetEntries (sampleEnv (.ok ⟨[x509Record, precertRecord]⟩)) sampleClient 5 7).err = none ∧
    ∃ out, (GetEntries (sampleEnv (.ok ⟨[x509Record, precertRecord]⟩)) sampleClient 5 7).entries
        = some out ∧
      out.length = ([x509Record, precertRecord] : List base64LeafEntry).length ∧
      ∀ (i : Nat) (e : LogEntry), out[i]? = some e → e.Index = 5 + (i : Int) :=
  ⟨by decide, by decide, by decide, by decide,
    C1_index_is_start_plus_position (sampleEnv (.ok ⟨[x509Record, precertRecord]⟩)) sampleClient
      5 7 ⟨[x509Record, precertRecord]⟩ (by decide) (by decide) rfl (by decide) (by decide)⟩

/-- C2 fails on the code: the `leaf_input` of the record is not valid standard
base64 (a `!` follows six quanta), yet GetEntries returns no error and returns
the record, decoded from the 18 bytes that precede the corrupt position. -/
theorem C2_corrupt_leaf_input_is_returned :
    ¬ validBase64 corruptLeafInputRecord.LeafInput ∧
    DecodeString corruptLeafInputRecord.LeafInput =
      ([0, 0, 0, 0, 0, 0, 0, 0, 0, 0, 0, 0, 0, 0, 0, 0, 0, 0], some (.CorruptInputError 24)) ∧
    (GetEntries (sampleEnv (.ok ⟨[corruptLeafInputRecord]⟩)) sampleClient 5 7).err = none ∧
    (GetEntries (sampleEnv (.ok ⟨[corruptLeafInputRecord]⟩)) sampleClient 5 7).entries =
      some [⟨5, sampleLeaf 0, []⟩] := by
  decide

/-- C3 fails on the code: the `extra_data` of the record is not valid standard
base64 (a `!` follows one quantum), yet GetEntries returns no error and returns
the record, its chain decoded from the 3 bytes that precede the corrupt position. -/
theorem C3_corrupt_extra_data_is_returned :
    ¬ validBase64 corruptExtraDataRecord.ExtraData ∧
    DecodeString corruptExtraDataRecord.ExtraData = ([0, 0, 0], some (.CorruptInputError 4)) ∧
    (GetEntries (sampleEnv (.ok ⟨[corruptExtraDataRecord]⟩)) sampleClient 5 7).err = none ∧
    (GetEntries (sampleEnv (.ok ⟨[corruptExtraDataRecord]⟩)) sampleClient 5 7).entries =
      some [⟨5, sampleLeaf 0, []⟩] := by
  decide

/-- C4: on every successful call, for each record `i` whose decoded leaf has
`EntryType == X509LogEntryType` the `Chain` of entry `i` is the result of the
X.509 chain-array decoder on the base64-decoded `extra_data` of record `i`, and
for each record whose leaf has `EntryType == PrecertLogEntryType` it is the result
of the precertificate chain-array decoder on those bytes. -/
theorem C4_chain_by_entry_type (env : Collaborators) (c : LogClient) (start end_ : Int)
    (resp : getEntriesResponse)
    (hf : env.fetchAndParse (getEntriesURL env c start end_) = .ok resp)
    (h : (GetEntries env c start end_).err = none) :
    ∃ out, (GetEntries env c start end_).entries = some out ∧
      ∀ (i : Nat) (r : base64LeafEntry) (leaf : MerkleTreeLeaf), resp.Entries[i]? = some r →
        env.ReadMerkleTreeLeaf (DecodeString r.LeafInput).1 = .ok leaf →
        ∃ e, out[i]? = some e ∧
          (leaf.TimestampedEntry.EntryType = env.X509LogEntryType →
            env.UnmarshalX509ChainArray (DecodeString r.ExtraData).1 = .ok e.Chain) ∧
          (leaf.TimestampedEntry.EntryType = env.PrecertLogEntryType →
            env.UnmarshalPrecertChainArray (DecodeString r.ExtraData).1 = .ok e.Chain) := by
  obtain ⟨out, hent, _, hrec⟩ := GetEntries_entries env c start end_ resp hf h
  refine ⟨out, hent, ?_⟩
  intro i r leaf hi hleaf
  obtain ⟨leaf1, chain, ⟨hl, hch⟩, hout⟩ := hrec i r hi
  rw [hleaf] at hl
  cases hl
  refine ⟨_, hout, ?_, ?_⟩
  · intro hx
    rcases hch with ⟨_, hc⟩ | ⟨hp, _⟩
    · exact hc
    · exact absurd (hx.symm.trans hp) env.distinctTypes
  · intro hp
    rcases hch with ⟨hx, _⟩ | ⟨_, hc⟩
    · exact absurd (hx.symm.trans hp) env.distinctTypes
    · exact hc

/-- C4 at the sample log: range (5, 7) and a response of an X.509 record and a
precertificate record. -/
theorem C4_chain_by_entry_type_witness :
    (GetEntries (sampleEnv (.ok ⟨[x509Record, precertRecord]⟩)) sampleClient 5 7).err = none ∧
    ∃ out, (GetEntries (sampleEnv (.ok ⟨[x509Record, precertRecord]⟩)) sampleClient 5 7).entries
        = some out ∧
      ∀ (i : Nat) (r : base64LeafEntry) (leaf : MerkleTreeLeaf),
        ([x509Record, precertRecord] : List base64LeafEntry)[i]? = some r →
        sampleReadMerkleTreeLeaf (DecodeString r.LeafInput).1 = .ok leaf →
        ∃ e, out[i]? = some e ∧
          (leaf.TimestampedEntry.EntryType = 0 →
            sampleUnmarshalX509ChainArray (DecodeString r.ExtraData).1 = .ok e.Chain) ∧
          (leaf.TimestampedEntry.EntryType = 1 →
            sampleUnmarshalPrecertChainArray (DecodeString r.ExtraData).1 = .ok e.Chain) :=
  ⟨by decide,
    C4_chain_by_entry_type (sampleEnv (.ok ⟨[x509Record, precertRecord]⟩)) sampleClient
      5 7 ⟨[x509Record, precertRecord]⟩ rfl (by decide)⟩

/-- C5: for every response in which all records before position `k` decode and the
leaf of record `k` decodes to an `EntryType` that is neither `X509LogEntryType`
nor `PrecertLogEntryType`, GetEntries returns no entries and the error with the
message "saw unknown entry type: " followed by that tag under the verb `%v`. -/
theorem C5_unknown_entry_type (env : Collaborators) (c : LogClient) (start end_ : Int)
    (resp : getEntriesResponse) (k : Nat) (r : base64LeafEntry) (leaf : MerkleTreeLeaf)
    (h0 : 0 ≤ end_) (h1 : start ≤ end_)
    (hf : env.fetchAndParse (getEntriesURL env c start end_) = .ok resp)
    (hpre : ∀ (j : Nat) (r1 : base64LeafEntry), j < k → resp.Entries[j]? = some r1 →
      Decodes env r1)
    (hk : resp.Entries[k]? = some r)
    (hleaf : env.ReadMerkleTreeLeaf (DecodeString r.LeafInput).1 = .ok leaf)
    (hx : leaf.TimestampedEntry.EntryType ≠ env.X509LogEntryType)
    (hp : leaf.TimestampedEntry.EntryType ≠ env.PrecertLogEntryType) :
    (GetEntries env c start end_).entries = none ∧
    (GetEntries env c start end_).err = some (.errorString
      ("saw unknown entry type: " ++ env.formatEntryType leaf.TimestampedEntry.EntryType)) := by
  have he : decodeRecord env r = .error (.errorString
      ("saw unknown entry type: " ++ env.formatEntryType leaf.TimestampedEntry.EntryType)) := by
    unfold decodeRecord
    rw [hleaf]
    simp only [if_neg hx, if_neg hp]
  rw [GetEntries_of_fetch env c start end_ resp h0 h1 hf,
    loop_fail env start resp.Entries k 0 _ r _ hpre hk he]
  exact ⟨rfl, rfl⟩

/-- C5 at the sample log: an X.509 record, then a record whose leaf has tag 7. -/
theorem C5_unknown_entry_type_witness :
    (0 : Int) ≤ 7 ∧ (5 : Int) ≤ 7 ∧
    (∀ (j : Nat) (r1 : base64LeafEntry), j < 1 →
      ([x509Record, unknownTypeRecord] : List base64LeafEntry)[j]? = some r1 →
      Decodes (sampleEnv (.ok ⟨[x509Record, unknownTypeRecord]⟩)) r1) ∧
    ([x509Record, unknownTypeRecord] : List base64LeafEntry)[1]? = some unknownTypeRecord ∧
    sampleReadMerkleTreeLeaf (DecodeString unknownTypeRecord.LeafInput).1 = .ok (sampleLeaf 7) ∧
    (sampleLeaf 7).TimestampedEntry.EntryType ≠ 0 ∧
    (sampleLeaf 7).TimestampedEntry.EntryType ≠ 1 ∧
    (GetEntries (sampleEnv (.ok ⟨[x509Record, unknownTypeRecord]⟩)) sampleClient 5 7).entries
      = none ∧
    (GetEntries (sampleEnv (.ok ⟨[x509Record, unknownTypeRecord]⟩)) sampleClient 5 7).err
      = some (.errorString "saw unknown entry type: 7") :=
  have hpre : ∀ (j : Nat) (r1 : base64LeafEntry), j < 1 →
      ([x509Record, unknownTypeRecord] : List base64LeafEntry)[j]? = some r1 →
      Decodes (sampleEnv (.ok ⟨[x509Record, unknownTypeRecord]⟩)) r1 := by
    intro j r1 hj hr
    have hj0 : j = 0 := by omega
    subst hj0
    simp only [List.getElem?_cons_zero, Option.some.injEq] at hr
    subst hr
    exact decodes_of_decodeRecord_ok _ _ (sampleLeaf 0, []) rfl
  ⟨by decide, by decide, hpre, rfl, rfl, by decide, by decide,
    C5_unknown_entry_type (sampleEnv (.ok ⟨[x509Record, unknownTypeRecord]⟩)) sampleClient
      5 7 ⟨[x509Record, unknownTypeRecord]⟩ 1 unknownTypeRecord (sampleLeaf 7)
      (by decide) (by decide) rfl hpre rfl rfl (by decide) (by decide)⟩

/-- C6: GetEntries is all-or-nothing: for every input it returns either a
collection with no error, or one error with no collection (nil); and when the
records before position `k` decode and record `k` fails in the leaf decoder, the
type dispatch or the chain decoder, it returns an error and none of the entries
decoded before. -/
theorem C6_all_or_nothing (env : Collaborators) (c : LogClient) (start end_ : Int) :
    ((∃ out, (GetEntries env c start end_).entries = some out ∧
        (GetEntries env c start end_).err = none) ∨
     ((GetEntries env c start end_).entries = none ∧
        ∃ e, (GetEntries env c start end_).err = some e)) ∧
    ∀ (resp : getEntriesResponse) (k : Nat) (r : base64LeafEntry),
      env.fetchAndParse (getEntriesURL env c start end_) = .ok resp →
      (∀ (j : Nat) (r1 : base64LeafEntry), j < k → resp.Entries[j]? = some r1 →
        Decodes env r1) →
      resp.Entries[k]? = some r → Rejects env r →
      (GetEntries env c start end_).entries = none ∧
        ∃ e, (GetEntries env c start end_).err = some e := by
  by_cases h0 : end_ < 0
  · have hg : GetEntries env c start end_ =
        ⟨none, some (.errorString "end should be >= 0"), []⟩ := by
      unfold GetEntries; rw [if_pos h0]
    rw [hg]
    exact ⟨Or.inr ⟨rfl, _, rfl⟩, fun _ _ _ _ _ _ _ => ⟨rfl, _, rfl⟩⟩
  · by_cases h1 : end_ < start
    · have hg : GetEntries env c start end_ =
          ⟨none, some (.errorString "start should be <= end"), []⟩ := by
        unfold GetEntries; rw [if_neg h0, if_pos h1]
      rw [hg]
      exact ⟨Or.inr ⟨rfl, _, rfl⟩, fun _ _ _ _ _ _ _ => ⟨rfl, _, rfl⟩⟩
    · constructor
      · cases hf : env.fetchAndParse (getEntriesURL env c start end_) with
        | error e =>
          have hg : GetEntries env c start end_ =
              ⟨none, some e, [getEntriesURL env c start end_]⟩ := by
            unfold GetEntries; rw [if_neg h0, if_neg h1]; simp only [hf]
          rw [hg]
          exact Or.inr ⟨rfl, _, rfl⟩
        | ok resp =>
          rw [GetEntries_of_fetch env c start end_ resp (by omega) (by omega) hf]
          rcases loop_shape env start resp.Entries 0
              (List.replicate resp.Entries.length zeroLogEntry) with ⟨out, ho⟩ | ⟨e, he⟩
          · rw [ho]; exact Or.inl ⟨out, rfl, rfl⟩
          · rw [he]; exact Or.inr ⟨rfl, e, rfl⟩
      · intro resp k r hf hpre hk hrej
        obtain ⟨e, he⟩ := decodeRecord_error_of_not_decodes env r (not_decodes_of_rejects env r hrej)
        rw [GetEntries_of_fetch env c start end_ resp (by omega) (by omega) hf,
          loop_fail env start resp.Entries k 0 _ r e hpre hk he]
        exact ⟨rfl, e, rfl⟩

/-- C6 at the sample log: an X.509 record, then a record that fails in the leaf
decoder; the call returns an error and not the entry decoded from the first. -/
theorem C6_all_or_nothing_witness :
    (sampleEnv (.ok ⟨[x509Record, shortLeafRecord]⟩)).fetchAndParse
      (getEntriesURL (sampleEnv (.ok ⟨[x509Record, shortLeafRecord]⟩)) sampleClient 5 7)
      = .ok ⟨[x509Record, shortLeafRecord]⟩ ∧
    (∀ (j : Nat) (r1 : base64LeafEntry), j < 1 →
      ([x509Record, shortLeafRecord] : List base64LeafEntry)[j]? = some r1 →
      Decodes (sampleEnv (.ok ⟨[x509Record, shortLeafRecord]⟩)) r1) ∧
    ([x509Record, shortLeafRecord] : List base64LeafEntry)[1]? = some shortLeafRecord ∧
    Rejects (sampleEnv (.ok ⟨[x509Record, shortLeafRecord]⟩)) shortLeafRecord ∧
    (GetEntries (sampleEnv (.ok ⟨[x509Record, shortLeafRecord]⟩)) sampleClient 5 7).entries
      = none ∧
    ∃ e, (GetEntries (sampleEnv (.ok ⟨[x509Record, shortLeafRecord]⟩)) sampleClient 5 7).err
      = some e :=
  have hpre : ∀ (j : Nat) (r1 : base64LeafEntry), j < 1 →
      ([x509Record, shortLeafRecord] : List base64LeafEntry)[j]? = some r1 →
      Decodes (sampleEnv (.ok ⟨[x509Record, shortLeafRecord]⟩)) r1 := by
    intro j r1 hj hr
    have hj0 : j = 0 := by omega
    subst hj0
    simp only [List.getElem?_cons_zero, Option.some.injEq] at hr
    subst hr
    exact decodes_of_decodeRecord_ok _ _ (sampleLeaf 0, []) rfl
  have hrej : Rejects (sampleEnv (.ok ⟨[x509Record, shortLeafRecord]⟩)) shortLeafRecord :=
    Or.inl ⟨.other "ct" "unexpected EOF", rfl⟩
  ⟨rfl, hpre, rfl, hrej,
    (C6_all_or_nothing (sampleEnv (.ok ⟨[x509Record, shortLeafRecord]⟩)) sampleClient 5 7).2
      ⟨[x509Record, shortLeafRecord]⟩ 1 shortLeafRecord rfl hpre rfl hrej⟩

/-- C7: on every successful call, the entry at position `i` of the returned
collection is built from the record at position `i` of the response: its `Leaf`
is the Merkle Tree Leaf decoded from the base64-decoded `leaf_input` of record
`i`, and its `Chain` is decoded from the base64-decoded `extra_data` of record
`i` by the decoder that the tag of that leaf selects. -/
theorem C7_entry_from_same_record (env : Collaborators) (c : LogClient) (start end_ : Int)
    (resp : getEntriesResponse)
    (hf : env.fetchAndParse (getEntriesURL env c start end_) = .ok resp)
    (h : (GetEntries env c start end_).err = none) :
    ∃ out, (GetEntries env c start end_).entries = some out ∧
      out.length = resp.Entries.length ∧
      ∀ (i : Nat) (r : base64LeafEntry), resp.Entries[i]? = some r →
        ∃ e, out[i]? = some e ∧
          env.ReadMerkleTreeLeaf (DecodeString r.LeafInput).1 = .ok e.Leaf ∧
          DecodesTo env r e.Leaf e.Chain := by
  obtain ⟨out, hent, hlen, hrec⟩ := GetEntries_entries env c start end_ resp hf h
  refine ⟨out, hent, hlen, ?_⟩
  intro i r hi
  obtain ⟨leaf, chain, hdec, hout⟩ := hrec i r hi
  exact ⟨_, hout, hdec.1, hdec⟩

/-- C7 at the sample log: range (5, 7) and a response of an X.509 record and a
precertificate record. -/
theorem C7_entry_from_same_record_witness :
    (GetEntries (sampleEnv (.ok ⟨[x509Record, precertRecord]⟩)) sampleClient 5 7).err = none ∧
    ∃ out, (GetEntries (sampleEnv (.ok ⟨[x509Record, precertRecord]⟩)) sampleClient 5 7).entries
        = some out ∧
      out.length = ([x509Record, precertRecord] : List base64LeafEntry).length ∧
      ∀ (i : Nat) (r : base64LeafEntry),
        ([x509Record, precertRecord] : List base64LeafEntry)[i]? = some r →
        ∃ e, out[i]? = some e ∧
          sampleReadMerkleTreeLeaf (DecodeString r.LeafInput).1 = .ok e.Leaf ∧
          DecodesTo (sampleEnv (.ok ⟨[x509Record, precertRecord]⟩)) r e.Leaf e.Chain :=
  ⟨by decide,
    C7_entry_from_same_record (sampleEnv (.ok ⟨[x509Record, precertRecord]⟩)) sampleClient
      5 7 ⟨[x509Record, precertRecord]⟩ rfl (by decide)⟩

/-- C8: on every successful call, the length of the returned collection equals
the number of records in the transport response. -/
theorem C8_length_is_record_count (env : Collaborators) (c : LogClient) (start end_ : Int)
    (resp : getEntriesResponse)
    (hf : env.fetchAndParse (getEntriesURL env c start end_) = .ok resp)
    (h : (GetEntries env c start end_).err = none) :
    ∃ out, (GetEntries env c start end_).entries = some out ∧
      out.length = resp.Entries.length := by
  obtain ⟨out, hent, hlen, _⟩ := GetEntries_entries env c start end_ resp hf h
  exact ⟨out, hent, hlen⟩

/-- C8 at the sample log: a response of three records to the range (5, 7). -/
theorem C8_length_is_record_count_witness :
    (GetEntries (sampleEnv (.ok ⟨[x509Record, precertRecord, x509Record]⟩)) sampleClient
      5 7).err = none ∧
    ∃ out, (GetEntries (sampleEnv (.ok ⟨[x509Record, precertRecord, x509Record]⟩)) sampleClient
        5 7).entries = some out ∧
      out.length = ([x509Record, precertRecord, x509Record] : List base64LeafEntry).length :=
  ⟨by decide,
    C8_length_is_record_count (sampleEnv (.ok ⟨[x509Record, precertRecord, x509Record]⟩))
      sampleClient 5 7 ⟨[x509Record, precertRecord, x509Record]⟩ rfl (by decide)⟩

/-- C9: for every `start` and `end` with `end < 0`, GetEntries returns no entries
and the error "end should be >= 0", whatever `start` is. -/
theorem C9_negative_end_rejected (env : Collaborators) (c : LogClient) (start end_ : Int)
    (h : end_ < 0) :
    (GetEntries env c start end_).entries = none ∧
    (GetEntries env c start end_).err = some (.errorString "end should be >= 0") := by
  unfold GetEntries
  rw [if_pos h]
  exact ⟨rfl, rfl⟩

/-- C9 at `start = -5`, `end = -1`, where `start < end < 0`. -/
theorem C9_negative_end_rejected_witness :
    (-1 : Int) < 0 ∧
    (GetEntries (sampleEnv (.ok ⟨[x509Record]⟩)) sampleClient (-5) (-1)).entries = none ∧
    (GetEntries (sampleEnv (.ok ⟨[x509Record]⟩)) sampleClient (-5) (-1)).err
      = some (.errorString "end should be >= 0") :=
  ⟨by decide, C9_negative_end_rejected (sampleEnv (.ok ⟨[x509Record]⟩)) sampleClient (-5) (-1)
    (by decide)⟩

/-- C10: for every `start` and `end` with `end < start`, GetEntries returns no
entries and an invalid-range error, whatever the signs of `start` and `end`: the
error "end should be >= 0" when `end < 0`, else "start should be <= end". -/
theorem C10_end_below_start_rejected (env : Collaborators) (c : LogClient) (start end_ : Int)
    (h : end_ < start) :
    (GetEntries env c start end_).entries = none ∧
    (GetEntries env c start end_).err =
      some (.errorString (if end_ < 0 then "end should be >= 0" else "start should be <= end")) := by
  unfold GetEntries
  by_cases h0 : end_ < 0
  · rw [if_pos h0, if_pos h0]
    exact ⟨rfl, rfl⟩
  · rw [if_neg h0, if_pos h, if_neg h0]
    exact ⟨rfl, rfl⟩

/-- C10 at `start = 3`, `end = 2`. -/
theorem C10_end_below_start_rejected_witness :
    (2 : Int) < 3 ∧
    (GetEntries (sampleEnv (.ok ⟨[x509Record]⟩)) sampleClient 3 2).entries = none ∧
    (GetEntries (sampleEnv (.ok ⟨[x509Record]⟩)) sampleClient 3 2).err
      = some (.errorString "start should be <= end") :=
  ⟨by decide, C10_end_below_start_rejected (sampleEnv (.ok ⟨[x509Record]⟩)) sampleClient 3 2
    (by decide)⟩

/-! ## The claims on the range checks and the transport -/

theorem GetEntries_withTransport_of_invalid (env : Collaborators) (c : LogClient)
    (start end_ : Int) (f : String → Except GoError getEntriesResponse)
    (h : end_ < 0 ∨ end_ < start) :
    GetEntries (withTransport env f) c start end_ = GetEntries env c start end_ := by
  unfold GetEntries
  by_cases h0 : end_ < 0
  · rw [if_pos h0, if_pos h0]
  · have h1 : end_ < start := h.resolve_left h0
    rw [if_neg h0, if_neg h0, if_pos h1, if_pos h1]

theorem GetEntries_of_fetch_error (env : Collaborators) (c : LogClient) (start end_ : Int)
    (e : GoError) (h0 : 0 ≤ end_) (h1 : start ≤ end_)
    (hf : env.fetchAndParse (getEntriesURL env c start end_) = .error e) :
    GetEntries env c start end_ =
      { entries := none, err := some e, fetched := [getEntriesURL env c start end_] } := by
  unfold GetEntries
  rw [if_neg (by omega), if_neg (by omega)]
  simp only [hf]

/-- C11: whenever range validation fails (`end < 0` or `end < start`), the
transport is never invoked: no fetch is recorded, and the result is the same
under every transport. -/
theorem C11_invalid_range_never_fetches (env : Collaborators) (c : LogClient) (start end_ : Int)
    (h : end_ < 0 ∨ end_ < start) :
    (GetEntries env c start end_).fetched = [] ∧
    ∀ f : String → Except GoError getEntriesResponse,
      GetEntries (withTransport env f) c start end_ = GetEntries env c start end_ := by
  refine ⟨?_, fun f => GetEntries_withTransport_of_invalid env c start end_ f h⟩
  unfold GetEntries
  by_cases h0 : end_ < 0
  · rw [if_pos h0]
  · rw [if_neg h0, if_pos (h.resolve_left h0)]

/-- C11 at `start = 3`, `end = 2`. -/
theorem C11_invalid_range_never_fetches_witness :
    ((2 : Int) < 0 ∨ (2 : Int) < 3) ∧
    (GetEntries (sampleEnv (.ok ⟨[x509Record]⟩)) sampleClient 3 2).fetched = [] ∧
    ∀ f : String → Except GoError getEntriesResponse,
      GetEntries (withTransport (sampleEnv (.ok ⟨[x509Record]⟩)) f) sampleClient 3 2
        = GetEntries (sampleEnv (.ok ⟨[x509Record]⟩)) sampleClient 3 2 :=
  ⟨by decide, C11_invalid_range_never_fetches (sampleEnv (.ok ⟨[x509Record]⟩)) sampleClient 3 2
    (by decide)⟩

/-- C12: range validation rejects nothing else: for every `start` and `end` with
`end >= 0` and `start <= end`, negative `start` included and with no upper bound
on `end`, the call goes on to the transport, invokes it once with the URL made of
exactly those `start` and `end`, and returns what the transport and the decode
loop give. -/
theorem C12_valid_range_reaches_transport (env : Collaborators) (c : LogClient)
    (start end_ : Int) (h0 : 0 ≤ end_) (h1 : start ≤ end_) :
    (GetEntries env c start end_).fetched =
      [c.uri ++ env.GetEntriesPath ++ "?start=" ++ formatD start ++ "&end=" ++ formatD end_] ∧
    GetEntries env c start end_ =
      (match env.fetchAndParse (getEntriesURL env c start end_) with
       | .error err =>
         { entries := none, err := some err, fetched := [getEntriesURL env c start end_] }
       | .ok resp =>
         { entries := (GetEntries.loop env start resp.Entries 0
               (List.replicate resp.Entries.length zeroLogEntry)).1
           err := (GetEntries.loop env start resp.Entries 0
               (List.replicate resp.Entries.length zeroLogEntry)).2
           fetched := [getEntriesURL env c start end_] }) := by
  cases hf : env.fetchAndParse (getEntriesURL env c start end_) with
  | error e =>
    rw [GetEntries_of_fetch_error env c start end_ e h0 h1 hf]
    exact ⟨rfl, rfl⟩
  | ok resp =>
    rw [GetEntries_of_fetch env c start end_ resp h0 h1 hf]
    exact ⟨rfl, rfl⟩

/-- C12 at `start = -3` and `end = 2^63 - 1`, the largest `int64`. -/
theorem C12_valid_range_reaches_transport_witness :
    (0 : Int) ≤ 9223372036854775807 ∧ (-3 : Int) ≤ 9223372036854775807 ∧
    (GetEntries (sampleEnv (.ok ⟨[x509Record]⟩)) sampleClient (-3) 9223372036854775807).fetched =
      ["https://log.example/ct/v1/get-entries?start=-3&end=9223372036854775807"] ∧
    (GetEntries (sampleEnv (.ok ⟨[x509Record]⟩)) sampleClient (-3) 9223372036854775807).err
      = none :=
  ⟨by decide, by decide,
    (C12_valid_range_reaches_transport (sampleEnv (.ok ⟨[x509Record]⟩)) sampleClient (-3)
      9223372036854775807 (by decide) (by decide)).1.trans (by decide),
    by decide⟩

/-- C13: for every valid range, if the transport (`fetchAndParse`) returns an
error `e`, GetEntries returns exactly `e`, unchanged and unwrapped, and no entries. -/
theorem C13_transport_error_unchanged (env : Collaborators) (c : LogClient) (start end_ : Int)
    (e : GoError) (h0 : 0 ≤ end_) (h1 : start ≤ end_)
    (hf : env.fetchAndParse (getEntriesURL env c start end_) = .error e) :
    (GetEntries env c start end_).entries = none ∧
    (GetEntries env c start end_).err = some e := by
  rw [GetEntries_of_fetch_error env c start end_ e h0 h1 hf]
  exact ⟨rfl, rfl⟩

/-- C13 at the sample log with a transport that reports a failed request. -/
theorem C13_transport_error_unchanged_witness :
    (0 : Int) ≤ 7 ∧ (5 : Int) ≤ 7 ∧
    (sampleEnv (.error (.other "http" "connection refused"))).fetchAndParse
      (getEntriesURL (sampleEnv (.error (.other "http" "connection refused"))) sampleClient 5 7)
      = .error (.other "http" "connection refused") ∧
    (GetEntries (sampleEnv (.error (.other "http" "connection refused"))) sampleClient 5 7).entries
      = none ∧
    (GetEntries (sampleEnv (.error (.other "http" "connection refused"))) sampleClient 5 7).err
      = some (.other "http" "connection refused") :=
  ⟨by decide, by decide, rfl,
    C13_transport_error_unchanged (sampleEnv (.error (.other "http" "connection refused")))
      sampleClient 5 7 (.other "http" "connection refused") (by decide) (by decide) rfl⟩

/-- C14: for every valid range and every response whose entries array is empty,
GetEntries returns no error and an empty collection. -/
theorem C14_empty_response (env : Collaborators) (c : LogClient) (start end_ : Int)
    (resp : getEntriesResponse) (h0 : 0 ≤ end_) (h1 : start ≤ end_)
    (hf : env.fetchAndParse (getEntriesURL env c start end_) = .ok resp)
    (hempty : resp.Entries = []) :
    (GetEntries env c start end_).entries = some [] ∧
    (GetEntries env c start end_).err = none := by
  rw [GetEntries_of_fetch env c start end_ resp h0 h1 hf, hempty]
  exact ⟨rfl, rfl⟩

/-- C14 at the sample log with a transport that answers with no records. -/
theorem C14_empty_response_witness :
    (0 : Int) ≤ 7 ∧ (5 : Int) ≤ 7 ∧
    (sampleEnv (.ok ⟨[]⟩)).fetchAndParse (getEntriesURL (sampleEnv (.ok ⟨[]⟩)) sampleClient 5 7)
      = .ok ⟨[]⟩ ∧
    (⟨[]⟩ : getEntriesResponse).Entries = [] ∧
    (GetEntries (sampleEnv (.ok ⟨[]⟩)) sampleClient 5 7).entries = some [] ∧
    (GetEntries (sampleEnv (.ok ⟨[]⟩)) sampleClient 5 7).err = none :=
  ⟨by decide, by decide, rfl, rfl,
    C14_empty_response (sampleEnv (.ok ⟨[]⟩)) sampleClient 5 7 ⟨[]⟩ (by decide) (by decide)
      rfl rfl⟩

/-! ## The claims on failing records and on the index -/

theorem decodeRecord_of_failsWith (env : Collaborators) (entry : base64LeafEntry) (e : GoError)
    (h : FailsWith env entry e) : decodeRecord env entry = .error e := by
  unfold decodeRecord
  rcases h with hl | ⟨leaf, hl, hx, hp, he⟩ | ⟨leaf, hl, hc⟩
  · rw [hl]
  · rw [hl]
    simp only [if_neg hx, if_neg hp, he]
  · rw [hl]
    rcases hc with ⟨hx, hc⟩ | ⟨hp, hc⟩
    · simp only [if_pos hx, hc]
    · have hx : leaf.TimestampedEntry.EntryType ≠ env.X509LogEntryType :=
        fun h => env.distinctTypes (h.symm.trans hp)
      simp only [if_neg hx, if_pos hp, hc]

theorem GetEntries_of_failing_record (env : Collaborators) (c : LogClient) (start end_ : Int)
    (resp : getEntriesResponse) (k : Nat) (r : base64LeafEntry) (e : GoError)
    (h0 : 0 ≤ end_) (h1 : start ≤ end_)
    (hf : env.fetchAndParse (getEntriesURL env c start end_) = .ok resp)
    (hpre : ∀ (j : Nat) (r1 : base64LeafEntry), j < k → resp.Entries[j]? = some r1 →
      Decodes env r1)
    (hk : resp.Entries[k]? = some r) (hfail : FailsWith env r e) :
    GetEntries env c start end_ =
      { entries := none, err := some e, fetched := [getEntriesURL env c start end_] } := by
  rw [GetEntries_of_fetch env c start end_ resp h0 h1 hf,
    loop_fail env start resp.Entries k 0 _ r e hpre hk (decodeRecord_of_failsWith env r e hfail)]

/-- C15, as stated, fails: the sample leaf decoder rejects the same record at
position 0 of one response and at position 1 of another, and the two calls return
the same error, with nothing in it that tells the positions apart. -/
theorem C15_counterexample :
    sampleReadMerkleTreeLeaf (DecodeString shortLeafRecord.LeafInput).1
      = .error (.other "ct" "unexpected EOF") ∧
    (GetEntries (sampleEnv (.ok ⟨[shortLeafRecord]⟩)) sampleClient 5 7).err
      = some (.other "ct" "unexpected EOF") ∧
    (GetEntries (sampleEnv (.ok ⟨[x509Record, shortLeafRecord]⟩)) sampleClient 5 7).err
      = some (.other "ct" "unexpected EOF") ∧
    (GetEntries (sampleEnv (.ok ⟨[shortLeafRecord]⟩)) sampleClient 5 7).err
      = (GetEntries (sampleEnv (.ok ⟨[x509Record, shortLeafRecord]⟩)) sampleClient 5 7).err := by
  refine ⟨rfl, ?_, ?_, ?_⟩ <;> decide

/-- C15, amended: for every record whose base64-decoded `leaf_input` is rejected
by the Merkle Tree Leaf decoder, the records before it decoding, GetEntries
returns no entries and exactly the error of the decoder, to which it adds neither
the position nor the index of the entry. -/
theorem C15_leaf_error_unchanged (env : Collaborators) (c : LogClient) (start end_ : Int)
    (resp : getEntriesResponse) (k : Nat) (r : base64LeafEntry) (e : GoError)
    (h0 : 0 ≤ end_) (h1 : start ≤ end_)
    (hf : env.fetchAndParse (getEntriesURL env c start end_) = .ok resp)
    (hpre : ∀ (j : Nat) (r1 : base64LeafEntry), j < k → resp.Entries[j]? = some r1 →
      Decodes env r1)
    (hk : resp.Entries[k]? = some r)
    (hleaf : env.ReadMerkleTreeLeaf (DecodeString r.LeafInput).1 = .error e) :
    (GetEntries env c start end_).entries = none ∧
    (GetEntries env c start end_).err = some e := by
  rw [GetEntries_of_failing_record env c start end_ resp k r e h0 h1 hf hpre hk (Or.inl hleaf)]
  exact ⟨rfl, rfl⟩

/-- C15, amended, at the sample log: an X.509 record, then a record whose leaf the
decoder rejects. -/
theorem C15_leaf_error_unchanged_witness :
    (0 : Int) ≤ 7 ∧ (5 : Int) ≤ 7 ∧
    (∀ (j : Nat) (r1 : base64LeafEntry), j < 1 →
      ([x509Record, shortLeafRecord] : List base64LeafEntry)[j]? = some r1 →
      Decodes (sampleEnv (.ok ⟨[x509Record, shortLeafRecord]⟩)) r1) ∧
    ([x509Record, shortLeafRecord] : List base64LeafEntry)[1]? = some shortLeafRecord ∧
    sampleReadMerkleTreeLeaf (DecodeString shortLeafRecord.LeafInput).1
      = .error (.other "ct" "unexpected EOF") ∧
    (GetEntries (sampleEnv (.ok ⟨[x509Record, shortLeafRecord]⟩)) sampleClient 5 7).entries
      = none ∧
    (GetEntries (sampleEnv (.ok ⟨[x509Record, shortLeafRecord]⟩)) sampleClient 5 7).err
      = some (.other "ct" "unexpected EOF") :=
  have hpre : ∀ (j : Nat) (r1 : base64LeafEntry), j < 1 →
      ([x509Record, shortLeafRecord] : List base64LeafEntry)[j]? = some r1 →
      Decodes (sampleEnv (.ok ⟨[x509Record, shortLeafRecord]⟩)) r1 := by
    intro j r1 hj hr
    have hj0 : j = 0 := by omega
    subst hj0
    simp only [List.getElem?_cons_zero, Option.some.injEq] at hr
    subst hr
    exact decodes_of_decodeRecord_ok _ _ (sampleLeaf 0, []) rfl
  ⟨by decide, by decide, hpre, rfl, rfl,
    C15_leaf_error_unchanged (sampleEnv (.ok ⟨[x509Record, shortLeafRecord]⟩)) sampleClient
      5 7 ⟨[x509Record, shortLeafRecord]⟩ 1 shortLeafRecord (.other "ct" "unexpected EOF")
      (by decide) (by decide) rfl hpre rfl rfl⟩

/-- C16, as stated, fails: for the range (5, 5), of one index, a response of two
records makes the call succeed with two entries. -/
theorem C16_counterexample :
    (GetEntries (sampleEnv (.ok ⟨[x509Record, x509Record]⟩)) sampleClient 5 5).err = none ∧
    (GetEntries (sampleEnv (.ok ⟨[x509Record, x509Record]⟩)) sampleClient 5 5).entries =
      some [⟨5, sampleLeaf 0, []⟩, ⟨6, sampleLeaf 0, []⟩] ∧
    ¬ ((([⟨5, sampleLeaf 0, []⟩, ⟨6, sampleLeaf 0, []⟩] : List LogEntry).length : Int)
        ≤ 5 - 5 + 1) := by
  decide

/-- C16, amended: for every successful call with range (start, end) on a
transport response of at most `end - start + 1` records, the number of entries
returned is at most `end - start + 1`. -/
theorem C16_length_within_range (env : Collaborators) (c : LogClient) (start end_ : Int)
    (resp : getEntriesResponse)
    (hf : env.fetchAndParse (getEntriesURL env c start end_) = .ok resp)
    (hb : (resp.Entries.length : Int) ≤ end_ - start + 1)
    (h : (GetEntries env c start end_).err = none) :
    ∃ out, (GetEntries env c start end_).entries = some out ∧
      (out.length : Int) ≤ end_ - start + 1 := by
  obtain ⟨out, hent, hlen, _⟩ := GetEntries_entries env c start end_ resp hf h
  exact ⟨out, hent, by rw [hlen]; exact hb⟩

/-- C16, amended, at the sample log: two records for the range (5, 7). -/
theorem C16_length_within_range_witness :
    ((([x509Record, precertRecord] : List base64LeafEntry).length : Int) ≤ 7 - 5 + 1) ∧
    (GetEntries (sampleEnv (.ok ⟨[x509Record, precertRecord]⟩)) sampleClient 5 7).err = none ∧
    ∃ out, (GetEntries (sampleEnv (.ok ⟨[x509Record, precertRecord]⟩)) sampleClient 5 7).entries
        = some out ∧ (out.length : Int) ≤ 7 - 5 + 1 :=
  ⟨by decide, by decide,
    C16_length_within_range (sampleEnv (.ok ⟨[x509Record, precertRecord]⟩)) sampleClient 5 7
      ⟨[x509Record, precertRecord]⟩ rfl (by decide) (by decide)⟩

/-- C18: for `start = 5`, any `end >= 5` and a response of exactly one record
whose `leaf_input` is valid base64 of a leaf the decoder accepts with tag
`X509LogEntryType` and whose `extra_data` is valid base64 of an X.509 chain array
the decoder accepts, GetEntries returns no error and a one-element collection
whose element has `Index = 5`, the decoded leaf as `Leaf` and the decoded chain
as `Chain`. -/
theorem C18_round_trip (env : Collaborators) (c : LogClient) (end_ : Int)
    (r : base64LeafEntry) (leaf : MerkleTreeLeaf) (chain : List ASN1Cert)
    (hend : 5 ≤ end_)
    (hf : env.fetchAndParse (getEntriesURL env c 5 end_) = .ok ⟨[r]⟩)
    (_hvl : validBase64 r.LeafInput) (_hve : validBase64 r.ExtraData)
    (hleaf : env.ReadMerkleTreeLeaf (DecodeString r.LeafInput).1 = .ok leaf)
    (hx : leaf.TimestampedEntry.EntryType = env.X509LogEntryType)
    (hchain : env.UnmarshalX509ChainArray (DecodeString r.ExtraData).1 = .ok chain) :
    (GetEntries env c 5 end_).entries = some [⟨5, leaf, chain⟩] ∧
    (GetEntries env c 5 end_).err = none := by
  have hd : decodeRecord env r = .ok (leaf, chain) :=
    (decodeRecord_ok_iff env r leaf chain).2 ⟨hleaf, Or.inl ⟨hx, hchain⟩⟩
  have hw : wrapInt64 (5 + ((0 : Nat) : Int)) = 5 := by decide
  have hl : GetEntries.loop env 5 [r] 0 (List.replicate 1 zeroLogEntry)
      = (some [⟨5, leaf, chain⟩], none) := by
    rw [loop_cons, hd]
    simp only [GetEntries.loop, List.replicate, storeEntry, assignAt, hw]
  rw [GetEntries_of_fetch env c 5 end_ ⟨[r]⟩ (by omega) hend hf]
  show (GetEntries.loop env 5 [r] 0 (List.replicate 1 zeroLogEntry)).1 = _ ∧
    (GetEntries.loop env 5 [r] 0 (List.replicate 1 zeroLogEntry)).2 = none
  rw [hl]
  exact ⟨rfl, rfl⟩

/-- C18 at the sample log, with `end = 7`. -/
theorem C18_round_trip_witness :
    (5 : Int) ≤ 7 ∧
    validBase64 x509Record.LeafInput ∧ validBase64 x509Record.ExtraData ∧
    sampleReadMerkleTreeLeaf (DecodeString x509Record.LeafInput).1 = .ok (sampleLeaf 0) ∧
    (sampleLeaf 0).TimestampedEntry.EntryType = 0 ∧
    sampleUnmarshalX509ChainArray (DecodeString x509Record.ExtraData).1 = .ok [] ∧
    (GetEntries (sampleEnv (.ok ⟨[x509Record]⟩)) sampleClient 5 7).entries
      = some [⟨5, sampleLeaf 0, []⟩] ∧
    (GetEntries (sampleEnv (.ok ⟨[x509Record]⟩)) sampleClient 5 7).err = none :=
  ⟨by decide, by decide, by decide, rfl, rfl, rfl,
    C18_round_trip (sampleEnv (.ok ⟨[x509Record]⟩)) sampleClient 7 x509Record (sampleLeaf 0) []
      (by decide) rfl (by decide) (by decide) rfl rfl rfl⟩

/-- C19: the first failing record decides the outcome: if `k` is the smallest
position at which the leaf decoder, the type dispatch or the chain decoder fails,
GetEntries returns no entries and the error produced at record `k`, and a
response that agrees with this one on the records 0 to `k` gives the same result. -/
theorem C19_first_failure_decides (env : Collaborators) (c : LogClient) (start end_ : Int)
    (resp1 resp2 : getEntriesResponse) (k : Nat) (r : base64LeafEntry) (e : GoError)
    (h0 : 0 ≤ end_) (h1 : start ≤ end_)
    (hf : env.fetchAndParse (getEntriesURL env c start end_) = .ok resp1)
    (hpre : ∀ (j : Nat) (r1 : base64LeafEntry), j < k → resp1.Entries[j]? = some r1 →
      Decodes env r1)
    (hk : resp1.Entries[k]? = some r) (hfail : FailsWith env r e)
    (hagree : resp2.Entries.take (k + 1) = resp1.Entries.take (k + 1)) :
    (GetEntries env c start end_).entries = none ∧
    (GetEntries env c start end_).err = some e ∧
    GetEntries (withTransport env (fun _ => .ok resp2)) c start end_
      = GetEntries env c start end_ := by
  have ha : ∀ j, j ≤ k → resp2.Entries[j]? = resp1.Entries[j]? := by
    intro j hj
    rw [← List.getElem?_take_of_lt (show j < k + 1 by omega), hagree,
      List.getElem?_take_of_lt (by omega)]
  have h2 := GetEntries_of_failing_record (withTransport env (fun _ => .ok resp2)) c start end_
    resp2 k r e h0 h1 rfl
    (fun j r1 hj hr => hpre j r1 hj (by rw [← ha j (by omega)]; exact hr))
    (by rw [ha k (Nat.le_refl k)]; exact hk) hfail
  rw [h2, GetEntries_of_failing_record env c start end_ resp1 k r e h0 h1 hf hpre hk hfail]
  exact ⟨rfl, rfl, rfl⟩

/-- C19 at the sample log: an X.509 record and a record of unknown tag, followed
in the second response by a record that the first response does not have. -/
theorem C19_first_failure_decides_witness :
    (0 : Int) ≤ 7 ∧ (5 : Int) ≤ 7 ∧
    (∀ (j : Nat) (r1 : base64LeafEntry), j < 1 →
      ([x509Record, unknownTypeRecord] : List base64LeafEntry)[j]? = some r1 →
      Decodes (sampleEnv (.ok ⟨[x509Record, unknownTypeRecord]⟩)) r1) ∧
    ([x509Record, unknownTypeRecord] : List base64LeafEntry)[1]? = some unknownTypeRecord ∧
    FailsWith (sampleEnv (.ok ⟨[x509Record, unknownTypeRecord]⟩)) unknownTypeRecord
      (.errorString "saw unknown entry type: 7") ∧
    ([x509Record, unknownTypeRecord, shortLeafRecord] : List base64LeafEntry).take (1 + 1)
      = ([x509Record, unknownTypeRecord] : List base64LeafEntry).take (1 + 1) ∧
    (GetEntries (sampleEnv (.ok ⟨[x509Record, unknownTypeRecord]⟩)) sampleClient 5 7).entries
      = none ∧
    (GetEntries (sampleEnv (.ok ⟨[x509Record, unknownTypeRecord]⟩)) sampleClient 5 7).err
      = some (.errorString "saw unknown entry type: 7") ∧
    GetEntries (withTransport (sampleEnv (.ok ⟨[x509Record, unknownTypeRecord]⟩))
        (fun _ => .ok ⟨[x509Record, unknownTypeRecord, shortLeafRecord]⟩)) sampleClient 5 7
      = GetEntries (sampleEnv (.ok ⟨[x509Record, unknownTypeRecord]⟩)) sampleClient 5 7 :=
  have hpre : ∀ (j : Nat) (r1 : base64LeafEntry), j < 1 →
      ([x509Record, unknownTypeRecord] : List base64LeafEntry)[j]? = some r1 →
      Decodes (sampleEnv (.ok ⟨[x509Record, unknownTypeRecord]⟩)) r1 := by
    intro j r1 hj hr
    have hj0 : j = 0 := by omega
    subst hj0
    simp only [List.getElem?_cons_zero, Option.some.injEq] at hr
    subst hr
    exact decodes_of_decodeRecord_ok _ _ (sampleLeaf 0, []) rfl
  have hfail : FailsWith (sampleEnv (.ok ⟨[x509Record, unknownTypeRecord]⟩)) unknownTypeRecord
      (.errorString "saw unknown entry type: 7") :=
    Or.inr (Or.inl ⟨sampleLeaf 7, rfl, by decide, by decide, by decide⟩)
  ⟨by decide, by decide, hpre, rfl, hfail, rfl,
    C19_first_failure_decides (sampleEnv (.ok ⟨[x509Record, unknownTypeRecord]⟩)) sampleClient
      5 7 ⟨[x509Record, unknownTypeRecord]⟩ ⟨[x509Record, unknownTypeRecord, shortLeafRecord]⟩
      1 unknownTypeRecord (.errorString "saw unknown entry type: 7")
      (by decide) (by decide) rfl hpre rfl hfail rfl⟩

theorem wrapInt64_of_overflow (x : Int) (h0 : 9223372036854775808 ≤ x)
    (h1 : x < 18446744073709551616) : wrapInt64 x = x - 18446744073709551616 := by
  unfold wrapInt64
  omega

/-- C20: the `Index` is `start + int64(index)` in 64-bit signed arithmetic.
Whenever `0 <= start <= end` and the response has at most `end - start + 1`
records, the sum does not overflow and `Index` is the mathematical sum
`start + i`; without that bound, once `start + i` reaches 2^63 the sum wraps
modulo 2^64 and `Index` is negative. -/
theorem C20_index_in_int64 (env : Collaborators) (c : LogClient) (start end_ : Int)
    (resp : getEntriesResponse) (hs : 0 ≤ start) (hle : start ≤ end_)
    (hend : end_ < 9223372036854775808)
    (hf : env.fetchAndParse (getEntriesURL env c start end_) = .ok resp)
    (h : (GetEntries env c start end_).err = none) :
    ∃ out, (GetEntries env c start end_).entries = some out ∧
      ∀ (i : Nat) (e : LogEntry), out[i]? = some e →
        e.Index = wrapInt64 (start + (i : Int)) ∧
        ((resp.Entries.length : Int) ≤ end_ - start + 1 → e.Index = start + (i : Int)) ∧
        (9223372036854775808 ≤ start + (i : Int) → (i : Int) < 9223372036854775808 →
          e.Index = start + (i : Int) - 18446744073709551616 ∧ e.Index < 0) := by
  obtain ⟨out, hent, hlen, hrec⟩ := GetEntries_entries env c start end_ resp hf h
  refine ⟨out, hent, ?_⟩
  intro i e hi
  have hlt : i < resp.Entries.length := by
    rcases Nat.lt_or_ge i out.length with hlt | hge
    · omega
    · rw [List.getElem?_eq_none hge] at hi; cases hi
  obtain ⟨leaf, chain, _, hout⟩ := hrec i resp.Entries[i] (List.getElem?_eq_getElem hlt)
  rw [hout] at hi
  cases hi
  refine ⟨rfl, ?_, ?_⟩
  · intro hb
    exact wrapInt64_of_range _ (by omega) (by omega)
  · intro ho hi63
    have hw := wrapInt64_of_overflow (start + (i : Int)) ho (by omega)
    show wrapInt64 (start + (i : Int)) = _ ∧ wrapInt64 (start + (i : Int)) < 0
    rw [hw]
    exact ⟨rfl, by omega⟩

/-- C20 at `start = end = 2^63 - 1` with a response of two records: the entry at
position 1 has `Index = -2^63`. -/
theorem C20_index_in_int64_witness :
    (0 : Int) ≤ 9223372036854775807 ∧
    (9223372036854775807 : Int) ≤ 9223372036854775807 ∧
    (9223372036854775807 : Int) < 9223372036854775808 ∧
    (GetEntries (sampleEnv (.ok ⟨[x509Record, x509Record]⟩)) sampleClient
      9223372036854775807 9223372036854775807).err = none ∧
    (GetEntries (sampleEnv (.ok ⟨[x509Record, x509Record]⟩)) sampleClient
      9223372036854775807 9223372036854775807).entries =
        some [⟨9223372036854775807, sampleLeaf 0, []⟩, ⟨-9223372036854775808, sampleLeaf 0, []⟩] ∧
    ∃ out, (GetEntries (sampleEnv (.ok ⟨[x509Record, x509Record]⟩)) sampleClient
        9223372036854775807 9223372036854775807).entries = some out ∧
      ∀ (i : Nat) (e : LogEntry), out[i]? = some e →
        e.Index = wrapInt64 (9223372036854775807 + (i : Int)) ∧
        ((([x509Record, x509Record] : List base64LeafEntry).length : Int)
            ≤ 9223372036854775807 - 9223372036854775807 + 1 →
          e.Index = 9223372036854775807 + (i : Int)) ∧
        (9223372036854775808 ≤ 9223372036854775807 + (i : Int) →
          (i : Int) < 9223372036854775808 →
          e.Index = 9223372036854775807 + (i : Int) - 18446744073709551616 ∧ e.Index < 0) :=
  ⟨by decide, by decide, by decide, by decide, by decide,
    C20_index_in_int64 (sampleEnv (.ok ⟨[x509Record, x509Record]⟩)) sampleClient
      9223372036854775807 9223372036854775807 ⟨[x509Record, x509Record]⟩
      (by decide) (by decide) (by decide) rfl (by decide)⟩

/-! ## The claim on the request URL -/

theorem digitChar_decimal : ∀ m, m < 10 →
    (Nat.digitChar m).toNat - 48 = m ∧ isDecimalDigit (Nat.digitChar m) = true ∧
    (Nat.digitChar m = '0' → m = 0) := by
  decide

theorem toDigitsCore_append (fuel : Nat) : ∀ (n : Nat) (ds : List Char),
    Nat.toDigitsCore 10 fuel n ds = Nat.toDigitsCore 10 fuel n [] ++ ds := by
  induction fuel with
  | zero => intro n ds; rfl
  | succ fuel ih =>
    intro n ds
    simp only [Nat.toDigitsCore]
    split
    · rfl
    · rw [ih (n / 10) (Nat.digitChar (n % 10) :: ds), ih (n / 10) [Nat.digitChar (n % 10)]]
      simp

theorem toDigitsCore_step (fuel n : Nat) (h : n / 10 ≠ 0) :
    Nat.toDigitsCore 10 (fuel + 1) n [] =
      Nat.toDigitsCore 10 fuel (n / 10) [] ++ [Nat.digitChar (n % 10)] := by
  simp only [Nat.toDigitsCore, if_neg h]
  exact toDigitsCore_append fuel (n / 10) _

theorem toDigitsCore_last (fuel n : Nat) (h : n / 10 = 0) :
    Nat.toDigitsCore 10 (fuel + 1) n [] = [Nat.digitChar (n % 10)] := by
  simp only [Nat.toDigitsCore, if_pos h]

theorem decimalValue_append (cs : List Char) (ch : Char) :
    decimalValue (cs ++ [ch]) = decimalValue cs * 10 + (ch.toNat - 48) := by
  simp [decimalValue, List.foldl_append]

theorem toDigitsCore_unpadded (fuel : Nat) : ∀ n, n < fuel →
    UnpaddedDecimal (Nat.toDigitsCore 10 fuel n []) n ∧
    (n ≠ 0 → (Nat.toDigitsCore 10 fuel n []).head? ≠ some '0') := by
  induction fuel with
  | zero => intro n h; omega
  | succ fuel ih =>
    intro n hn
    have hd := digitChar_decimal (n % 10) (Nat.mod_lt n (by decide))
    by_cases h : n / 10 = 0
    · rw [toDigitsCore_last fuel n h]
      have hn10 : n % 10 = n := by omega
      refine ⟨⟨by simp, ?_, ?_, ?_⟩, ?_⟩
      · intro ch hch
        simp only [List.mem_singleton] at hch
        rw [hch]; exact hd.2.1
      · simp only [decimalValue, List.foldl_cons, List.foldl_nil, Nat.zero_mul, Nat.zero_add]
        rw [hd.1, hn10]
      · intro hz
        simp only [List.head?_cons, Option.some.injEq] at hz
        rw [hz]
      · intro hne hz
        simp only [List.head?_cons, Option.some.injEq] at hz
        have := hd.2.2 hz
        omega
    · rw [toDigitsCore_step fuel n h]
      obtain ⟨⟨hne, hdig, hval, _⟩, hlead⟩ := ih (n / 10) (by omega)
      have hhead : (Nat.toDigitsCore 10 fuel (n / 10) [] ++ [Nat.digitChar (n % 10)]).head?
          = (Nat.toDigitsCore 10 fuel (n / 10) []).head? := by
        cases hc : Nat.toDigitsCore 10 fuel (n / 10) [] with
        | nil => exact absurd hc hne
        | cons a as => rfl
      refine ⟨⟨by simp, ?_, ?_, ?_⟩, ?_⟩
      · intro ch hch
        rcases List.mem_append.1 hch with hm | hm
        · exact hdig ch hm
        · simp only [List.mem_singleton] at hm
          rw [hm]; exact hd.2.1
      · rw [decimalValue_append, hval, hd.1]
        omega
      · intro hz
        rw [hhead] at hz
        exact absurd hz (hlead h)
      · intro _ hz
        rw [hhead] at hz
        exact absurd hz (hlead h)

theorem toDigits_unpadded (n : Nat) : UnpaddedDecimal (Nat.toDigits 10 n) n :=
  (toDigitsCore_unpadded (n + 1) n (Nat.lt_succ_self n)).1

theorem formatD_signedDecimal (x : Int) : SignedDecimal (formatD x) x := by
  unfold SignedDecimal
  cases x with
  | ofNat n =>
    rw [if_neg (by simp)]
    exact toDigits_unpadded n
  | negSucc n =>
    rw [if_pos (Int.negSucc_lt_zero n)]
    exact ⟨Nat.toDigits 10 (n + 1), rfl, toDigits_unpadded (n + 1)⟩

theorem GetEntries_fetched_of_valid (env : Collaborators) (c : LogClient) (start end_ : Int)
    (h0 : 0 ≤ end_) (h1 : start ≤ end_) :
    (GetEntries env c start end_).fetched = [getEntriesURL env c start end_] := by
  cases hf : env.fetchAndParse (getEntriesURL env c start end_) with
  | error e => rw [GetEntries_of_fetch_error env c start end_ e h0 h1 hf]
  | ok resp => rw [GetEntries_of_fetch env c start end_ resp h0 h1 hf]

/-- C17: for every valid range, the URL passed to the transport is exactly the
log base URI, followed by the get-entries path, followed by "?start=", the
numeral of `start`, "&end=" and the numeral of `end`, each numeral being the
signed decimal numeral of the value without padding. -/
theorem C17_request_url (env : Collaborators) (c : LogClient) (start end_ : Int)
    (h0 : 0 ≤ end_) (h1 : start ≤ end_) :
    (GetEntries env c start end_).fetched =
      [c.uri ++ env.GetEntriesPath ++ "?start=" ++ formatD start ++ "&end=" ++ formatD end_] ∧
    SignedDecimal (formatD start) start ∧ SignedDecimal (formatD end_) end_ :=
  ⟨GetEntries_fetched_of_valid env c start end_ h0 h1, formatD_signedDecimal start,
    formatD_signedDecimal end_⟩

/-- C17 at the sample log with `start = -3` and `end = 120`. -/
theorem C17_request_url_witness :
    (0 : Int) ≤ 120 ∧ (-3 : Int) ≤ 120 ∧
    formatD (-3) = "-3" ∧ formatD 120 = "120" ∧
    (GetEntries (sampleEnv (.ok ⟨[x509Record]⟩)) sampleClient (-3) 120).fetched =
      ["https://log.example/ct/v1/get-entries?start=-3&end=120"] ∧
    SignedDecimal (formatD (-3)) (-3) ∧ SignedDecimal (formatD 120) 120 :=
  have h := C17_request_url (sampleEnv (.ok ⟨[x509Record]⟩)) sampleClient (-3) 120
    (by decide) (by decide)
  ⟨by decide, by decide, by decide, by decide, h.1.trans (by decide), h.2.1, h.2.2⟩

end Client
